import Mathlib

/-!
# ReplaySorcery: the export routine `rsSave` of `src/save.c`

A shallow embedding of `rsSave`.  The routine is a straight-line sequence of calls into the
muxing library with one `for` loop over the private snapshot of the packet ring.  The embedding
threads an explicit world (the live ring of the encoder, the private snapshot, and the sequence
of calls performed so far) through the statements in source order.  What the library answers
(return codes, the rescaled timing fields) and the helper that fills the snapshot are inputs
of the model, collected in `Env`.
-/

namespace ReplaySorcery

/-! ## Data model -/

/-- The unknown-timestamp sentinel of the muxing library: the least `int64_t`. -/
def AV_NOPTS_VALUE : Int := -(2 ^ 63)

/-- Reduction of an integer into the `int64_t` range, two's complement. -/
def wrap64 (x : Int) : Int := (x + 2 ^ 63) % 2 ^ 64 - 2 ^ 63

/-- A value is representable as an `int64_t`. -/
def isInt64 (x : Int) : Prop := -(2 ^ 63) ≤ x ∧ x < 2 ^ 63

instance (x : Int) : Decidable (isInt64 x) := by
  unfold isInt64; exact inferInstance

/-- A time-base: a rational unit of time, numerator over denominator. -/
structure AVRational where
  num : Int
  den : Int
deriving DecidableEq, Repr

/-- An encoded packet: the payload bytes and the timing fields `rsSave` touches. -/
structure AVPacket where
  data : List Nat
  pts : Int
  dts : Int
  duration : Int
deriving DecidableEq, Repr

/-- Modelled from the spec: the type `RSPacketCircle` of `pktcircle.h`, which is not part of the
sources at hand.  `packets` is the storage (`packets[i]` in `rsSave`), `tail` the number of valid
entries (the loop bound of `rsSave`), `head` the ring cursor of the data model. -/
structure RSPacketCircle where
  packets : List AVPacket
  head : Nat
  tail : Nat
deriving DecidableEq, Repr

/-- One observable action of `rsSave`, named after the call or access in the source.  The two
per-packet events carry the loop index and the packet as it is handed over. -/
inductive Event where
  | av_bprint_init
  | rsPathJoin
  | av_log_saving
  | avformat_alloc_output_context2
  | av_opt_set
  | avio_open
  | avformat_new_stream
  | avcodec_parameters_from_context
  | av_dump_format
  | avformat_write_header
  | rsPacketCircleCopy
  | read_pts (slot : Nat)
  | read_dts (slot : Nat)
  | av_packet_rescale_ts (i : Nat) (packet : AVPacket)
  | av_write_frame (i : Nat) (packet : AVPacket)
  | rsPacketCircleClear
  | av_write_trailer
  | avio_closep
  | avformat_free_context
  | av_log_success
  | av_bprint_finalize
deriving DecidableEq, Repr

/-- How a run of `rsSave` ends: it returns, it is aborted by a failed `rsCheck`, or it reads a
snapshot slot outside the storage. -/
inductive Exit where
  | returned
  | aborted
  | fault
deriving DecidableEq, Repr

/-- The collaborators of `rsSave`: the return code of each checked library call, the two
time-bases, the library's conversion of the timing fields `(pts, dts, duration)` of a packet
between two time-bases, and the helper that copies the ring given as second argument (passed
as pointer to `const`) into the one given as first argument. -/
structure Env where
  alloc_ret : Int
  opt_set_ret : Int
  avio_open_ret : Int
  write_header_ret : Int
  write_frame_ret : Nat → AVPacket → Int
  write_trailer_ret : Int
  encoder_time_base : AVRational
  stream_time_base : AVRational
  rescale_ts : AVRational → AVRational → Int × Int × Int → Int × Int × Int
  rsPacketCircleCopy : RSPacketCircle → RSPacketCircle → RSPacketCircle

/-- The world `rsSave` acts on: `live` is `encoder->pktCircle`, `priv` is `priv.pktCircle`,
`trace` the actions performed so far, oldest first. -/
structure World where
  live : RSPacketCircle
  priv : RSPacketCircle
  trace : List Event
deriving DecidableEq, Repr

/-- Record one action. -/
def World.emit (w : World) (e : Event) : World :=
  { w with trace := w.trace ++ [e] }

/-! ## Operations -/

/-- Modelled from the spec: `rsCheck` of `error.h`, which is not part of the sources at hand.
A failure code of the muxing library (a negative return value) aborts the export at that step;
the result says whether execution continues. -/
def rsCheck (ret : Int) : Bool := decide (0 ≤ ret)

/-- Modelled from the spec: `rsPacketCircleClear` of `pktcircle.c`, which is not part of the
sources at hand.  It releases the payload of every packet of the ring and leaves it empty. -/
def rsPacketCircleClear (c : RSPacketCircle) : RSPacketCircle :=
  { c with packets := c.packets.map (fun p => { p with data := [] }), tail := 0 }

/-- Lines 61-62 and 63-64: the offset taken from a timestamp of the first slot. -/
def tsOffset (first : Int) : Int :=
  if first = AV_NOPTS_VALUE then 0 else first

/-- Lines 68-69: `packet->pts -= ptsOffset; packet->dts -= dtsOffset;` on `int64_t`. -/
def shiftTs (ptsOffset dtsOffset : Int) (packet : AVPacket) : AVPacket :=
  { packet with pts := wrap64 (packet.pts - ptsOffset), dts := wrap64 (packet.dts - dtsOffset) }

/-- Line 73: `av_packet_rescale_ts(packet, encoder->codecCtx->time_base, stream->time_base)`. -/
def rescalePacket (env : Env) (packet : AVPacket) : AVPacket :=
  let t := env.rescale_ts env.encoder_time_base env.stream_time_base
    (packet.pts, packet.dts, packet.duration)
  { packet with pts := t.1, dts := t.2.1, duration := t.2.2 }

/-- Lines 66-75: the loop `for (size_t i = 0; i < priv.pktCircle.tail; ++i)`.  The first
argument is `tail - i`, the number of iterations left; it is `0` exactly when the loop guard
fails.  The result is `none` when the loop runs to its end. -/
def writeLoop (env : Env) (ptsOffset dtsOffset : Int) : Nat → Nat → World → Option Exit × World
  | 0, _, w => (none, w)
  | remaining + 1, i, w =>
    match w.priv.packets[i]? with
    | none => (some Exit.fault, w)
    | some packet =>
      let shifted := shiftTs ptsOffset dtsOffset packet
      let w1 := w.emit (Event.av_packet_rescale_ts i shifted)
      let out := rescalePacket env shifted
      let w2 : World := { w1 with priv := { w1.priv with packets := w1.priv.packets.set i out } }
      let w3 := w2.emit (Event.av_write_frame i out)
      if rsCheck (env.write_frame_ret i out) then
        writeLoop env ptsOffset dtsOffset remaining (i + 1) w3
      else (some Exit.aborted, w3)

/-- Lines 76-82: what follows the loop. -/
def finish (env : Env) (w : World) : Exit × World :=
  let w1 : World := { w with priv := rsPacketCircleClear w.priv }
  let w2 := w1.emit Event.rsPacketCircleClear
  let w3 := w2.emit Event.av_write_trailer
  if rsCheck env.write_trailer_ret then
    let w4 := w3.emit Event.avio_closep
    let w5 := w4.emit Event.avformat_free_context
    let w6 := w5.emit Event.av_log_success
    (Exit.returned, w6.emit Event.av_bprint_finalize)
  else (Exit.aborted, w3)

/-- Lines 55-75: the snapshot, the two offsets and the loop. -/
def snapshotAndWrite (env : Env) (w : World) : Option Exit × World :=
  let w1 : World := { w with priv := env.rsPacketCircleCopy w.priv w.live }
  let w2 := w1.emit Event.rsPacketCircleCopy
  match w2.priv.packets[0]? with
  | none => (some Exit.fault, w2)
  | some first =>
    let w3 := w2.emit (Event.read_pts 0)
    let ptsOffset := tsOffset first.pts
    let w4 := w3.emit (Event.read_dts 0)
    let dtsOffset := tsOffset first.dts
    writeLoop env ptsOffset dtsOffset w4.priv.tail 0 w4

/-- Lines 33-54: from the entry of `rsSave` to the header write.  The result is `none` when
every checked call succeeds.  The getter `rsRecordVideo()` of line 48 has no effect and leaves
no action in the trace. -/
def openOutput (env : Env) (w : World) : Option Exit × World :=
  let w1 := w.emit Event.av_bprint_init
  let w2 := w1.emit Event.rsPathJoin
  let w3 := w2.emit Event.av_log_saving
  let w4 := w3.emit Event.avformat_alloc_output_context2
  if rsCheck env.alloc_ret then
    let w5 := w4.emit Event.av_opt_set
    if rsCheck env.opt_set_ret then
      let w6 := w5.emit Event.avio_open
      if rsCheck env.avio_open_ret then
        let w7 := w6.emit Event.avformat_new_stream
        let w8 := w7.emit Event.avcodec_parameters_from_context
        let w9 := w8.emit Event.av_dump_format
        let w10 := w9.emit Event.avformat_write_header
        if rsCheck env.write_header_ret then (none, w10)
        else (some Exit.aborted, w10)
      else (some Exit.aborted, w6)
    else (some Exit.aborted, w5)
  else (some Exit.aborted, w4)

/-- The routine `rsSave` of `src/save.c`, run on the live ring of the encoder and the private
ring; its trace starts empty. -/
def rsSave (env : Env) (live priv : RSPacketCircle) : Exit × World :=
  match openOutput env ⟨live, priv, []⟩ with
  | (some e, w1) => (e, w1)
  | (none, w1) =>
    match snapshotAndWrite env w1 with
    | (some e, w2) => (e, w2)
    | (none, w2) => finish env w2

/-! ## Observations on a trace -/

/-- The packets handed to the rescaling step, with their loop index, in order. -/
def rescaled : List Event → List (Nat × AVPacket)
  | [] => []
  | Event.av_packet_rescale_ts i p :: t => (i, p) :: rescaled t
  | _ :: t => rescaled t

/-- The packets handed to the container writer, with their loop index, in order. -/
def written : List Event → List (Nat × AVPacket)
  | [] => []
  | Event.av_write_frame i p :: t => (i, p) :: written t
  | _ :: t => written t

/-- The packet handed to the container writer for a snapshot entry: shifted, then rescaled. -/
def outPacket (env : Env) (ptsOffset dtsOffset : Int) (p : AVPacket) : AVPacket :=
  rescalePacket env (shiftTs ptsOffset dtsOffset p)

/-- The actions of `writeLoop` as a function of the packets `snap` stored when the loop starts. -/
def loopEvents (env : Env) (ptsOffset dtsOffset : Int) (snap : List AVPacket) :
    Nat → Nat → List Event
  | 0, _ => []
  | remaining + 1, i =>
    match snap[i]? with
    | none => []
    | some p =>
      Event.av_packet_rescale_ts i (shiftTs ptsOffset dtsOffset p) ::
        Event.av_write_frame i (outPacket env ptsOffset dtsOffset p) ::
          (if rsCheck (env.write_frame_ret i (outPacket env ptsOffset dtsOffset p)) then
            loopEvents env ptsOffset dtsOffset snap remaining (i + 1)
          else [])

/-- The way `writeLoop` ends as a function of the packets `snap` stored when the loop starts. -/
def loopExit (env : Env) (ptsOffset dtsOffset : Int) (snap : List AVPacket) :
    Nat → Nat → Option Exit
  | 0, _ => none
  | remaining + 1, i =>
    match snap[i]? with
    | none => some Exit.fault
    | some p =>
      if rsCheck (env.write_frame_ret i (outPacket env ptsOffset dtsOffset p)) then
        loopExit env ptsOffset dtsOffset snap remaining (i + 1)
      else some Exit.aborted

/-- The actions of `openOutput` when every checked call succeeds. -/
def openEvents : List Event :=
  [Event.av_bprint_init, Event.rsPathJoin, Event.av_log_saving,
   Event.avformat_alloc_output_context2, Event.av_opt_set, Event.avio_open,
   Event.avformat_new_stream, Event.avcodec_parameters_from_context, Event.av_dump_format,
   Event.avformat_write_header]

/-- The actions between the header write and the loop. -/
def snapshotEvents : List Event :=
  [Event.rsPacketCircleCopy, Event.read_pts 0, Event.read_dts 0]

/-- The actions after the loop when the trailer write succeeds. -/
def finishEvents : List Event :=
  [Event.rsPacketCircleClear, Event.av_write_trailer, Event.avio_closep,
   Event.avformat_free_context, Event.av_log_success, Event.av_bprint_finalize]

/-- The snapshot `rsSave` takes: the private ring after `rsPacketCircleCopy`. -/
def snapshotOf (env : Env) (live priv : RSPacketCircle) : RSPacketCircle :=
  env.rsPacketCircleCopy priv live

/-- The four checked calls before the snapshot succeed. -/
def opened (env : Env) : Prop :=
  0 ≤ env.alloc_ret ∧ 0 ≤ env.opt_set_ret ∧ 0 ≤ env.avio_open_ret ∧ 0 ≤ env.write_header_ret

instance (env : Env) : Decidable (opened env) := by
  unfold opened; exact inferInstance

/-- The return code of a checked muxing step is a failure code. -/
def stepFailed (env : Env) : Event → Prop
  | Event.avformat_alloc_output_context2 => env.alloc_ret < 0
  | Event.av_opt_set => env.opt_set_ret < 0
  | Event.avio_open => env.avio_open_ret < 0
  | Event.avformat_write_header => env.write_header_ret < 0
  | Event.av_write_frame i p => env.write_frame_ret i p < 0
  | Event.av_write_trailer => env.write_trailer_ret < 0
  | _ => False

instance (env : Env) (e : Event) : Decidable (stepFailed env e) := by
  cases e <;> (unfold stepFailed; exact inferInstance)

/-! ## Concrete collaborators used to exercise the model -/

/-- A rational conversion of one timestamp, rounding to nearest; the sentinel is kept. -/
def rescaleQ (a b : AVRational) (x : Int) : Int :=
  if x = AV_NOPTS_VALUE then x
  else (2 * x * a.num * b.den + a.den * b.num) / (2 * a.den * b.num)

/-- The timing conversion built from `rescaleQ`. -/
def rescaleTsQ (a b : AVRational) (t : Int × Int × Int) : Int × Int × Int :=
  (rescaleQ a b t.1, rescaleQ a b t.2.1, if 0 < t.2.2 then rescaleQ a b t.2.2 else t.2.2)

/-- A copy helper that stores the first `tail` slots of the source at the front of the
storage of the destination. -/
def copyFront (dst src : RSPacketCircle) : RSPacketCircle :=
  { packets := src.packets.take src.tail ++ dst.packets.drop src.tail, head := 0,
    tail := src.tail }

/-- An environment in which every library call succeeds; encoder time-base 1/30, stream
time-base 1/15360. -/
def envOk : Env :=
  { alloc_ret := 0, opt_set_ret := 0, avio_open_ret := 0, write_header_ret := 0,
    write_frame_ret := fun _ _ => 0, write_trailer_ret := 0,
    encoder_time_base := ⟨1, 30⟩, stream_time_base := ⟨1, 15360⟩,
    rescale_ts := rescaleTsQ, rsPacketCircleCopy := copyFront }

/-- The environment `envOk` except that the write of the packet with index `k` fails. -/
def envWriteFails (k : Nat) : Env :=
  { envOk with write_frame_ret := fun i _ => if i = k then -1 else 0 }

/-- A packet with the given payload byte and timestamps. -/
def pkt (b : Nat) (pts dts : Int) : AVPacket := ⟨[b], pts, dts, 1⟩

/-- A live ring holding exactly the given packets. -/
def liveOf (ps : List AVPacket) : RSPacketCircle := ⟨ps, 0, ps.length⟩

/-- An empty private ring with four blank slots. -/
def privBlank : RSPacketCircle :=
  ⟨List.replicate 4 ⟨[], AV_NOPTS_VALUE, AV_NOPTS_VALUE, 0⟩, 0, 0⟩

/-! ## The loop in closed form -/

theorem emit_trace (w : World) (e : Event) : (w.emit e).trace = w.trace ++ [e] := rfl

theorem emit_live (w : World) (e : Event) : (w.emit e).live = w.live := rfl

theorem emit_priv (w : World) (e : Event) : (w.emit e).priv = w.priv := rfl

/-- The world after one iteration of the loop on slot `i` holding `p`. -/
theorem writeLoop_succ (env : Env) (po dof : Int) (r i : Nat) (w : World) (p : AVPacket)
    (hi : w.priv.packets[i]? = some p) :
    writeLoop env po dof (r + 1) i w =
      if rsCheck (env.write_frame_ret i (outPacket env po dof p)) then
        writeLoop env po dof r (i + 1)
          ⟨w.live, ⟨w.priv.packets.set i (outPacket env po dof p), w.priv.head, w.priv.tail⟩,
            w.trace ++ [Event.av_packet_rescale_ts i (shiftTs po dof p),
              Event.av_write_frame i (outPacket env po dof p)]⟩
      else
        (some Exit.aborted,
          ⟨w.live, ⟨w.priv.packets.set i (outPacket env po dof p), w.priv.head, w.priv.tail⟩,
            w.trace ++ [Event.av_packet_rescale_ts i (shiftTs po dof p),
              Event.av_write_frame i (outPacket env po dof p)]⟩) := by
  simp [writeLoop, hi, World.emit, outPacket]

/-- The loop reads each slot before it overwrites it: its exit, its trace and its frame are
those of the closed form over the packets stored when it starts. -/
theorem writeLoop_eq (env : Env) (po dof : Int) (snap : List AVPacket) :
    ∀ (remaining i : Nat) (w : World),
      (∀ j, i ≤ j → w.priv.packets[j]? = snap[j]?) →
      (writeLoop env po dof remaining i w).1 = loopExit env po dof snap remaining i ∧
      (writeLoop env po dof remaining i w).2.trace
        = w.trace ++ loopEvents env po dof snap remaining i ∧
      (writeLoop env po dof remaining i w).2.live = w.live ∧
      (writeLoop env po dof remaining i w).2.priv.tail = w.priv.tail ∧
      (writeLoop env po dof remaining i w).2.priv.head = w.priv.head := by
  intro remaining
  induction remaining with
  | zero => intro i w _; simp [writeLoop, loopExit, loopEvents]
  | succ r ih =>
    intro i w hw
    have hi : w.priv.packets[i]? = snap[i]? := hw i (Nat.le_refl i)
    cases hs : snap[i]? with
    | none =>
      rw [hs] at hi
      simp [writeLoop, loopExit, loopEvents, hi, hs]
    | some p =>
      rw [hs] at hi
      rw [writeLoop_succ env po dof r i w p hi]
      by_cases hok : rsCheck (env.write_frame_ret i (outPacket env po dof p)) = true
      · have hnext := ih (i + 1)
          ⟨w.live, ⟨w.priv.packets.set i (outPacket env po dof p), w.priv.head, w.priv.tail⟩,
            w.trace ++ [Event.av_packet_rescale_ts i (shiftTs po dof p),
              Event.av_write_frame i (outPacket env po dof p)]⟩
          (by
            intro j hj
            have hne : i ≠ j := by omega
            show (w.priv.packets.set i (outPacket env po dof p))[j]? = snap[j]?
            rw [List.getElem?_set_ne hne]
            exact hw j (by omega))
        simp only [hok, if_true, loopExit, loopEvents, hs]
        refine ⟨hnext.1, ?_, hnext.2.2.1, hnext.2.2.2.1, hnext.2.2.2.2⟩
        rw [hnext.2.1]
        simp
      · simp [loopExit, loopEvents, hs, hok]

/-! ## The three phases of `rsSave` in closed form -/

theorem openOutput_ok (env : Env) (w : World) (h1 : rsCheck env.alloc_ret = true)
    (h2 : rsCheck env.opt_set_ret = true) (h3 : rsCheck env.avio_open_ret = true)
    (h4 : rsCheck env.write_header_ret = true) :
    openOutput env w = (none, ⟨w.live, w.priv, w.trace ++ openEvents⟩) := by
  simp [openOutput, h1, h2, h3, h4, World.emit, openEvents]

theorem openOutput_alloc_fails (env : Env) (w : World) (h1 : rsCheck env.alloc_ret = false) :
    openOutput env w = (some Exit.aborted, ⟨w.live, w.priv, w.trace ++ openEvents.take 4⟩) := by
  simp [openOutput, h1, World.emit, openEvents]

theorem openOutput_opt_fails (env : Env) (w : World) (h1 : rsCheck env.alloc_ret = true)
    (h2 : rsCheck env.opt_set_ret = false) :
    openOutput env w = (some Exit.aborted, ⟨w.live, w.priv, w.trace ++ openEvents.take 5⟩) := by
  simp [openOutput, h1, h2, World.emit, openEvents]

theorem openOutput_open_fails (env : Env) (w : World) (h1 : rsCheck env.alloc_ret = true)
    (h2 : rsCheck env.opt_set_ret = true) (h3 : rsCheck env.avio_open_ret = false) :
    openOutput env w = (some Exit.aborted, ⟨w.live, w.priv, w.trace ++ openEvents.take 6⟩) := by
  simp [openOutput, h1, h2, h3, World.emit, openEvents]

theorem openOutput_header_fails (env : Env) (w : World) (h1 : rsCheck env.alloc_ret = true)
    (h2 : rsCheck env.opt_set_ret = true) (h3 : rsCheck env.avio_open_ret = true)
    (h4 : rsCheck env.write_header_ret = false) :
    openOutput env w = (some Exit.aborted, ⟨w.live, w.priv, w.trace ++ openEvents⟩) := by
  simp [openOutput, h1, h2, h3, h4, World.emit, openEvents]

theorem finish_eq (env : Env) (w : World) :
    finish env w =
      (if rsCheck env.write_trailer_ret then Exit.returned else Exit.aborted,
        ⟨w.live, rsPacketCircleClear w.priv,
          w.trace ++ (if rsCheck env.write_trailer_ret then finishEvents
            else finishEvents.take 2)⟩) := by
  by_cases h : rsCheck env.write_trailer_ret = true <;>
    simp [finish, h, World.emit, finishEvents]

theorem snapshotAndWrite_fault (env : Env) (w : World)
    (h0 : (env.rsPacketCircleCopy w.priv w.live).packets[0]? = none) :
    snapshotAndWrite env w =
      (some Exit.fault, ⟨w.live, env.rsPacketCircleCopy w.priv w.live,
        w.trace ++ [Event.rsPacketCircleCopy]⟩) := by
  simp [snapshotAndWrite, World.emit, h0]

theorem snapshotAndWrite_eq (env : Env) (w : World) (first : AVPacket)
    (h0 : (env.rsPacketCircleCopy w.priv w.live).packets[0]? = some first) :
    (snapshotAndWrite env w).1
        = loopExit env (tsOffset first.pts) (tsOffset first.dts)
            (env.rsPacketCircleCopy w.priv w.live).packets
            (env.rsPacketCircleCopy w.priv w.live).tail 0 ∧
    (snapshotAndWrite env w).2.trace
        = w.trace ++ snapshotEvents ++
          loopEvents env (tsOffset first.pts) (tsOffset first.dts)
            (env.rsPacketCircleCopy w.priv w.live).packets
            (env.rsPacketCircleCopy w.priv w.live).tail 0 ∧
    (snapshotAndWrite env w).2.live = w.live ∧
    (snapshotAndWrite env w).2.priv.tail = (env.rsPacketCircleCopy w.priv w.live).tail := by
  have h := writeLoop_eq env (tsOffset first.pts) (tsOffset first.dts)
    (env.rsPacketCircleCopy w.priv w.live).packets
    (env.rsPacketCircleCopy w.priv w.live).tail 0
    ⟨w.live, env.rsPacketCircleCopy w.priv w.live, w.trace ++ snapshotEvents⟩
    (fun _ _ => rfl)
  have hs : snapshotAndWrite env w =
      writeLoop env (tsOffset first.pts) (tsOffset first.dts)
        (env.rsPacketCircleCopy w.priv w.live).tail 0
        ⟨w.live, env.rsPacketCircleCopy w.priv w.live, w.trace ++ snapshotEvents⟩ := by
    simp [snapshotAndWrite, World.emit, h0, snapshotEvents]
  rw [hs]
  exact ⟨h.1, h.2.1, h.2.2.1, h.2.2.2.1⟩

/-! ## Runs of `rsSave` in closed form -/

theorem rsCheck_true_iff (ret : Int) : rsCheck ret = true ↔ 0 ≤ ret := by
  simp [rsCheck]

theorem rsCheck_false_iff (ret : Int) : rsCheck ret = false ↔ ret < 0 := by
  simp [rsCheck]

/-- Unfolding of `rsSave` once the four checked calls before the snapshot succeed. -/
theorem rsSave_opened (env : Env) (live priv : RSPacketCircle) (ho : opened env) :
    rsSave env live priv =
      match snapshotAndWrite env ⟨live, priv, openEvents⟩ with
      | (some e, w2) => (e, w2)
      | (none, w2) => finish env w2 := by
  obtain ⟨h1, h2, h3, h4⟩ := ho
  have hopen := openOutput_ok env ⟨live, priv, []⟩ ((rsCheck_true_iff _).2 h1)
    ((rsCheck_true_iff _).2 h2) ((rsCheck_true_iff _).2 h3) ((rsCheck_true_iff _).2 h4)
  unfold rsSave
  rw [hopen]
  rfl

/-- A run that reaches the loop and leaves it early. -/
theorem rsSave_loop_stops (env : Env) (live priv : RSPacketCircle) (first : AVPacket) (e : Exit)
    (ho : opened env) (h0 : (snapshotOf env live priv).packets[0]? = some first)
    (hl : loopExit env (tsOffset first.pts) (tsOffset first.dts)
      (snapshotOf env live priv).packets (snapshotOf env live priv).tail 0 = some e) :
    (rsSave env live priv).1 = e ∧
    (rsSave env live priv).2.trace
      = openEvents ++ snapshotEvents ++
        loopEvents env (tsOffset first.pts) (tsOffset first.dts)
          (snapshotOf env live priv).packets (snapshotOf env live priv).tail 0 ∧
    (rsSave env live priv).2.live = live ∧
    (rsSave env live priv).2.priv.tail = (snapshotOf env live priv).tail := by
  have hsw := snapshotAndWrite_eq env ⟨live, priv, openEvents⟩ first h0
  rw [rsSave_opened env live priv ho]
  rcases hq : snapshotAndWrite env ⟨live, priv, openEvents⟩ with ⟨x, w2⟩
  rw [hq] at hsw
  obtain ⟨hx, ht, hlive, htail⟩ := hsw
  have hx2 : x = some e := by
    have : (x, w2).1 = some e := by rw [hx]; exact hl
    exact this
  subst hx2
  exact ⟨rfl, ht, hlive, htail⟩

/-- A run whose loop runs to its end. -/
theorem rsSave_loop_done (env : Env) (live priv : RSPacketCircle) (first : AVPacket)
    (ho : opened env) (h0 : (snapshotOf env live priv).packets[0]? = some first)
    (hl : loopExit env (tsOffset first.pts) (tsOffset first.dts)
      (snapshotOf env live priv).packets (snapshotOf env live priv).tail 0 = none) :
    (rsSave env live priv).1
      = (if rsCheck env.write_trailer_ret then Exit.returned else Exit.aborted) ∧
    (rsSave env live priv).2.trace
      = openEvents ++ snapshotEvents ++
        loopEvents env (tsOffset first.pts) (tsOffset first.dts)
          (snapshotOf env live priv).packets (snapshotOf env live priv).tail 0 ++
        (if rsCheck env.write_trailer_ret then finishEvents else finishEvents.take 2) ∧
    (rsSave env live priv).2.live = live ∧
    (rsSave env live priv).2.priv.tail = 0 ∧
    (∀ p ∈ (rsSave env live priv).2.priv.packets, p.data = []) := by
  have hsw := snapshotAndWrite_eq env ⟨live, priv, openEvents⟩ first h0
  rw [rsSave_opened env live priv ho]
  rcases hq : snapshotAndWrite env ⟨live, priv, openEvents⟩ with ⟨x, w2⟩
  rw [hq] at hsw
  obtain ⟨hx, ht, hlive, _⟩ := hsw
  have hx2 : x = none := by
    have : (x, w2).1 = none := by rw [hx]; exact hl
    exact this
  subst hx2
  show (finish env w2).1 = _ ∧ (finish env w2).2.trace = _ ∧ (finish env w2).2.live = _ ∧
    (finish env w2).2.priv.tail = 0 ∧ ∀ p ∈ (finish env w2).2.priv.packets, p.data = []
  rw [finish_eq]
  refine ⟨rfl, ?_, hlive, rfl, ?_⟩
  · show w2.trace ++ _ = _
    have ht2 : w2.trace = _ := ht
    rw [ht2]
    rfl
  · intro p hp
    have hp2 : p ∈ (rsPacketCircleClear w2.priv).packets := hp
    simp only [rsPacketCircleClear, List.mem_map] at hp2
    obtain ⟨q, _, hq2⟩ := hp2
    rw [← hq2]

/-- A run whose snapshot has no storage slot at all. -/
theorem rsSave_no_slot (env : Env) (live priv : RSPacketCircle)
    (ho : opened env) (h0 : (snapshotOf env live priv).packets[0]? = none) :
    (rsSave env live priv).1 = Exit.fault ∧
    (rsSave env live priv).2.trace = openEvents ++ [Event.rsPacketCircleCopy] ∧
    (rsSave env live priv).2.live = live := by
  rw [rsSave_opened env live priv ho,
    snapshotAndWrite_fault env ⟨live, priv, openEvents⟩ h0]
  exact ⟨rfl, rfl, rfl⟩

/-- A run in which one of the four checked calls before the snapshot fails: the trace is the
opening sequence cut after the failing call. -/
theorem rsSave_not_opened (env : Env) (live priv : RSPacketCircle) (ho : ¬ opened env) :
    (rsSave env live priv).1 = Exit.aborted ∧
    (rsSave env live priv).2.live = live ∧
    (rsSave env live priv).2.priv = priv ∧
    ((env.alloc_ret < 0 ∧ (rsSave env live priv).2.trace = openEvents.take 4) ∨
     (0 ≤ env.alloc_ret ∧ env.opt_set_ret < 0 ∧
        (rsSave env live priv).2.trace = openEvents.take 5) ∨
     (0 ≤ env.alloc_ret ∧ 0 ≤ env.opt_set_ret ∧ env.avio_open_ret < 0 ∧
        (rsSave env live priv).2.trace = openEvents.take 6) ∨
     (0 ≤ env.alloc_ret ∧ 0 ≤ env.opt_set_ret ∧ 0 ≤ env.avio_open_ret ∧
        env.write_header_ret < 0 ∧ (rsSave env live priv).2.trace = openEvents)) := by
  by_cases h1 : 0 ≤ env.alloc_ret
  · by_cases h2 : 0 ≤ env.opt_set_ret
    · by_cases h3 : 0 ≤ env.avio_open_ret
      · have h4 : env.write_header_ret < 0 := by
          by_contra h4
          exact ho ⟨h1, h2, h3, by omega⟩
        have := openOutput_header_fails env ⟨live, priv, []⟩ ((rsCheck_true_iff _).2 h1)
          ((rsCheck_true_iff _).2 h2) ((rsCheck_true_iff _).2 h3) ((rsCheck_false_iff _).2 h4)
        have hr : rsSave env live priv = (Exit.aborted, ⟨live, priv, openEvents⟩) := by
          unfold rsSave; rw [this]; rfl
        rw [hr]
        exact ⟨rfl, rfl, rfl, Or.inr (Or.inr (Or.inr ⟨h1, h2, h3, h4, rfl⟩))⟩
      · have h3b : env.avio_open_ret < 0 := by omega
        have := openOutput_open_fails env ⟨live, priv, []⟩ ((rsCheck_true_iff _).2 h1)
          ((rsCheck_true_iff _).2 h2) ((rsCheck_false_iff _).2 h3b)
        have hr : rsSave env live priv = (Exit.aborted, ⟨live, priv, openEvents.take 6⟩) := by
          unfold rsSave; rw [this]; rfl
        rw [hr]
        exact ⟨rfl, rfl, rfl, Or.inr (Or.inr (Or.inl ⟨h1, h2, h3b, rfl⟩))⟩
    · have h2b : env.opt_set_ret < 0 := by omega
      have := openOutput_opt_fails env ⟨live, priv, []⟩ ((rsCheck_true_iff _).2 h1)
        ((rsCheck_false_iff _).2 h2b)
      have hr : rsSave env live priv = (Exit.aborted, ⟨live, priv, openEvents.take 5⟩) := by
        unfold rsSave; rw [this]; rfl
      rw [hr]
      exact ⟨rfl, rfl, rfl, Or.inr (Or.inl ⟨h1, h2b, rfl⟩)⟩
  · have h1b : env.alloc_ret < 0 := by omega
    have := openOutput_alloc_fails env ⟨live, priv, []⟩ ((rsCheck_false_iff _).2 h1b)
    have hr : rsSave env live priv = (Exit.aborted, ⟨live, priv, openEvents.take 4⟩) := by
      unfold rsSave; rw [this]; rfl
    rw [hr]
    exact ⟨rfl, rfl, rfl, Or.inl ⟨h1b, rfl⟩⟩

/-! ## Observations and appended traces -/

theorem rescaled_append (s t : List Event) : rescaled (s ++ t) = rescaled s ++ rescaled t := by
  induction s with
  | nil => rfl
  | cons e s ih => cases e <;> simp [rescaled, ih]

theorem written_append (s t : List Event) : written (s ++ t) = written s ++ written t := by
  induction s with
  | nil => rfl
  | cons e s ih => cases e <;> simp [written, ih]

theorem mem_rescaled_iff (t : List Event) (j : Nat) (q : AVPacket) :
    (j, q) ∈ rescaled t ↔ Event.av_packet_rescale_ts j q ∈ t := by
  induction t with
  | nil => simp [rescaled]
  | cons e t ih => cases e <;> simp [rescaled, ih]

theorem mem_written_iff (t : List Event) (j : Nat) (q : AVPacket) :
    (j, q) ∈ written t ↔ Event.av_write_frame j q ∈ t := by
  induction t with
  | nil => simp [written]
  | cons e t ih => cases e <;> simp [written, ih]

/-- In a trace whose only failed step is its last event, a failed step has nothing after it. -/
theorem failed_is_last (env : Env) (X : List Event) (x : Event)
    (hX : ∀ y ∈ X, ¬ stepFailed env y) :
    ∀ (l r : List Event) (e : Event), X ++ [x] = l ++ e :: r → stepFailed env e →
      r = [] ∧ l = X ∧ e = x := by
  induction X with
  | nil =>
    intro l r e h _
    cases l with
    | nil =>
      simp only [List.nil_append, List.cons.injEq] at h
      exact ⟨h.2.symm, rfl, h.1.symm⟩
    | cons y l => simp at h
  | cons y X ih =>
    intro l r e h hf
    cases l with
    | nil =>
      simp only [List.nil_append, List.cons_append, List.cons.injEq] at h
      exact absurd (h.1 ▸ hf) (hX y (List.mem_cons_self y X))
    | cons z l =>
      simp only [List.cons_append, List.cons.injEq] at h
      obtain ⟨h1, h2, h3⟩ := ih (fun y hy => hX y (List.mem_cons_of_mem _ hy)) l r e h.2 hf
      exact ⟨h1, by rw [h.1, h2], h3⟩

/-- A trace without a failed step cannot be split at one. -/
theorem no_failed_split (env : Env) (t l r : List Event) (e : Event)
    (ht : ∀ y ∈ t, ¬ stepFailed env y) (h : t = l ++ e :: r) : ¬ stepFailed env e := by
  apply ht
  rw [h]
  simp

/-! ## The actions of the loop -/

theorem loopExit_succ_none (env : Env) (po dof : Int) (snap : List AVPacket) (r i : Nat)
    (hs : snap[i]? = none) : loopExit env po dof snap (r + 1) i = some Exit.fault := by
  simp [loopExit, hs]

theorem loopExit_succ_some (env : Env) (po dof : Int) (snap : List AVPacket) (r i : Nat)
    (p : AVPacket) (hs : snap[i]? = some p) :
    loopExit env po dof snap (r + 1) i =
      if rsCheck (env.write_frame_ret i (outPacket env po dof p)) then
        loopExit env po dof snap r (i + 1)
      else some Exit.aborted := by
  simp [loopExit, hs]

theorem loopEvents_succ_none (env : Env) (po dof : Int) (snap : List AVPacket) (r i : Nat)
    (hs : snap[i]? = none) : loopEvents env po dof snap (r + 1) i = [] := by
  simp [loopEvents, hs]

theorem loopEvents_succ_some (env : Env) (po dof : Int) (snap : List AVPacket) (r i : Nat)
    (p : AVPacket) (hs : snap[i]? = some p) :
    loopEvents env po dof snap (r + 1) i =
      Event.av_packet_rescale_ts i (shiftTs po dof p) ::
        Event.av_write_frame i (outPacket env po dof p) ::
          (if rsCheck (env.write_frame_ret i (outPacket env po dof p)) then
            loopEvents env po dof snap r (i + 1)
          else []) := by
  simp [loopEvents, hs]

/-- Every action of the loop hands over the packet of one snapshot slot in range. -/
theorem loopEvents_mem (env : Env) (po dof : Int) (snap : List AVPacket) :
    ∀ (r i : Nat) (e : Event), e ∈ loopEvents env po dof snap r i →
      ∃ j p, i ≤ j ∧ j < i + r ∧ snap[j]? = some p ∧
        (e = Event.av_packet_rescale_ts j (shiftTs po dof p) ∨
         e = Event.av_write_frame j (outPacket env po dof p)) := by
  intro r
  induction r with
  | zero => intro i e h; simp [loopEvents] at h
  | succ r ih =>
    intro i e h
    cases hs : snap[i]? with
    | none => rw [loopEvents_succ_none env po dof snap r i hs] at h; simp at h
    | some p =>
      rw [loopEvents_succ_some env po dof snap r i p hs] at h
      simp only [List.mem_cons] at h
      rcases h with h | h | h
      · exact ⟨i, p, Nat.le_refl i, by omega, hs, Or.inl h⟩
      · exact ⟨i, p, Nat.le_refl i, by omega, hs, Or.inr h⟩
      · by_cases hok : rsCheck (env.write_frame_ret i (outPacket env po dof p)) = true
        · rw [if_pos hok] at h
          obtain ⟨j, q, h1, h2, h3, h4⟩ := ih (i + 1) e h
          exact ⟨j, q, by omega, by omega, h3, h4⟩
        · rw [if_neg hok] at h
          simp at h

/-- The loop ends early only by a failed write or by a slot outside the storage. -/
theorem loopExit_some (env : Env) (po dof : Int) (snap : List AVPacket) :
    ∀ (r i : Nat) (x : Exit), loopExit env po dof snap r i = some x →
      x = Exit.aborted ∨ (x = Exit.fault ∧ snap.length < i + r) := by
  intro r
  induction r with
  | zero => intro i x h; simp [loopExit] at h
  | succ r ih =>
    intro i x h
    cases hs : snap[i]? with
    | none =>
      rw [loopExit_succ_none env po dof snap r i hs] at h
      simp only [Option.some.injEq] at h
      have := List.getElem?_eq_none_iff.1 hs
      exact Or.inr ⟨h.symm, by omega⟩
    | some p =>
      rw [loopExit_succ_some env po dof snap r i p hs] at h
      by_cases hok : rsCheck (env.write_frame_ret i (outPacket env po dof p)) = true
      · rw [if_pos hok] at h
        rcases ih (i + 1) x h with h1 | ⟨h1, h2⟩
        · exact Or.inl h1
        · exact Or.inr ⟨h1, by omega⟩
      · rw [if_neg hok] at h
        simp only [Option.some.injEq] at h
        exact Or.inl h.symm

/-- Unless the loop is aborted none of its writes failed; when it is aborted the failed
write is its last action, every write before it succeeded and has a smaller index. -/
theorem loopEvents_shape (env : Env) (po dof : Int) (snap : List AVPacket) :
    ∀ (r i : Nat),
      (loopExit env po dof snap r i ≠ some Exit.aborted →
        ∀ e ∈ loopEvents env po dof snap r i, ¬ stepFailed env e) ∧
      (loopExit env po dof snap r i = some Exit.aborted →
        ∃ l j q, loopEvents env po dof snap r i = l ++ [Event.av_write_frame j q] ∧
          stepFailed env (Event.av_write_frame j q) ∧
          (∀ e ∈ l, ¬ stepFailed env e) ∧
          (∀ k u, Event.av_write_frame k u ∈ l → k < j)) := by
  intro r
  induction r with
  | zero =>
    intro i
    simp [loopExit, loopEvents]
  | succ r ih =>
    intro i
    cases hs : snap[i]? with
    | none =>
      rw [loopExit_succ_none env po dof snap r i hs, loopEvents_succ_none env po dof snap r i hs]
      simp
    | some p =>
      rw [loopExit_succ_some env po dof snap r i p hs,
        loopEvents_succ_some env po dof snap r i p hs]
      by_cases hok : rsCheck (env.write_frame_ret i (outPacket env po dof p)) = true
      · have hnf : ¬ stepFailed env (Event.av_write_frame i (outPacket env po dof p)) := by
          have := (rsCheck_true_iff _).1 hok
          simp only [stepFailed]
          omega
        simp only [hok, if_true]
        obtain ⟨ih1, ih2⟩ := ih (i + 1)
        constructor
        · intro hne e he
          simp only [List.mem_cons] at he
          rcases he with he | he | he
          · rw [he]; simp [stepFailed]
          · rw [he]; exact hnf
          · exact ih1 hne e he
        · intro hab
          obtain ⟨l, j, q, h1, h2, h3, h4⟩ := ih2 hab
          have hj : i + 1 ≤ j := by
            have hm : Event.av_write_frame j q ∈ loopEvents env po dof snap r (i + 1) := by
              rw [h1]; simp
            obtain ⟨j2, p2, hb1, _, _, hb4⟩ := loopEvents_mem env po dof snap r (i + 1) _ hm
            rcases hb4 with hb4 | hb4
            · cases hb4
            · cases hb4; exact hb1
          refine ⟨Event.av_packet_rescale_ts i (shiftTs po dof p) ::
            Event.av_write_frame i (outPacket env po dof p) :: l, j, q, ?_, h2, ?_, ?_⟩
          · rw [h1]; rfl
          · intro e he
            simp only [List.mem_cons] at he
            rcases he with he | he | he
            · rw [he]; simp [stepFailed]
            · rw [he]; exact hnf
            · exact h3 e he
          · intro k u hk
            simp only [List.mem_cons] at hk
            rcases hk with hk | hk | hk
            · cases hk
            · cases hk; omega
            · exact h4 k u hk
      · have hf : stepFailed env (Event.av_write_frame i (outPacket env po dof p)) := by
          have : rsCheck (env.write_frame_ret i (outPacket env po dof p)) = false := by
            simpa using hok
          exact (rsCheck_false_iff _).1 this
        simp only [hok]
        constructor
        · intro hne; exact absurd rfl hne
        · intro _
          refine ⟨[Event.av_packet_rescale_ts i (shiftTs po dof p)], i,
            outPacket env po dof p, rfl, hf, ?_, ?_⟩
          · intro e he
            simp only [List.mem_singleton] at he
            rw [he]; simp [stepFailed]
          · intro k u hk
            simp at hk

/-- When the loop runs to its end it writes one packet per slot, in slot order. -/
theorem written_loopEvents (env : Env) (po dof : Int) (snap : List AVPacket) :
    ∀ (r i : Nat), loopExit env po dof snap r i = none →
      (written (loopEvents env po dof snap r i)).length = r ∧
      ∀ k, k < r → ∃ p, snap[i + k]? = some p ∧
        (written (loopEvents env po dof snap r i))[k]? = some (i + k, outPacket env po dof p) := by
  intro r
  induction r with
  | zero => intro i _; simp [loopEvents, written]
  | succ r ih =>
    intro i h
    cases hs : snap[i]? with
    | none => rw [loopExit_succ_none env po dof snap r i hs] at h; simp at h
    | some p =>
      rw [loopExit_succ_some env po dof snap r i p hs] at h
      rw [loopEvents_succ_some env po dof snap r i p hs]
      by_cases hok : rsCheck (env.write_frame_ret i (outPacket env po dof p)) = true
      · rw [if_pos hok] at h
        obtain ⟨ih1, ih2⟩ := ih (i + 1) h
        simp only [hok, if_true, written, List.length_cons, ih1, true_and]
        intro k hk
        cases k with
        | zero => exact ⟨p, hs, by simp⟩
        | succ k =>
          obtain ⟨q, hq1, hq2⟩ := ih2 k (by omega)
          refine ⟨q, ?_, ?_⟩
          · rw [← hq1]; congr 1; omega
          · rw [List.getElem?_cons_succ, hq2]
            congr 2; omega
      · rw [if_neg hok] at h
        simp at h

/-! ## Runs of `rsSave`: the four shapes -/

/-- The loop contains no action other than the two per-packet ones. -/
theorem loopEvents_only (env : Env) (po dof : Int) (snap : List AVPacket) (r i : Nat)
    (e : Event) (he : e ∈ loopEvents env po dof snap r i) :
    ∃ j q, e = Event.av_packet_rescale_ts j q ∨ e = Event.av_write_frame j q := by
  obtain ⟨j, p, _, _, _, h⟩ := loopEvents_mem env po dof snap r i e he
  rcases h with h | h
  · exact ⟨j, _, Or.inl h⟩
  · exact ⟨j, _, Or.inr h⟩

/-- Every run of `rsSave` has one of four shapes: cut in the opening sequence, stopped for
want of a storage slot, stopped inside the loop, or run through the loop. -/
theorem rsSave_shapes (env : Env) (live priv : RSPacketCircle) :
    (¬ opened env ∧ (rsSave env live priv).1 = Exit.aborted ∧
      ∃ k, 4 ≤ k ∧ (rsSave env live priv).2.trace = openEvents.take k) ∨
    (opened env ∧ (snapshotOf env live priv).packets[0]? = none ∧
      (rsSave env live priv).1 = Exit.fault ∧
      (rsSave env live priv).2.trace = openEvents ++ [Event.rsPacketCircleCopy]) ∨
    (∃ first e, opened env ∧ (snapshotOf env live priv).packets[0]? = some first ∧
      loopExit env (tsOffset first.pts) (tsOffset first.dts)
        (snapshotOf env live priv).packets (snapshotOf env live priv).tail 0 = some e ∧
      (rsSave env live priv).1 = e ∧
      (rsSave env live priv).2.trace = openEvents ++ snapshotEvents ++
        loopEvents env (tsOffset first.pts) (tsOffset first.dts)
          (snapshotOf env live priv).packets (snapshotOf env live priv).tail 0 ∧
      (rsSave env live priv).2.priv.tail = (snapshotOf env live priv).tail) ∨
    (∃ first, opened env ∧ (snapshotOf env live priv).packets[0]? = some first ∧
      loopExit env (tsOffset first.pts) (tsOffset first.dts)
        (snapshotOf env live priv).packets (snapshotOf env live priv).tail 0 = none ∧
      (rsSave env live priv).1
        = (if rsCheck env.write_trailer_ret then Exit.returned else Exit.aborted) ∧
      (rsSave env live priv).2.trace = openEvents ++ snapshotEvents ++
        loopEvents env (tsOffset first.pts) (tsOffset first.dts)
          (snapshotOf env live priv).packets (snapshotOf env live priv).tail 0 ++
        (if rsCheck env.write_trailer_ret then finishEvents else finishEvents.take 2) ∧
      (rsSave env live priv).2.priv.tail = 0 ∧
      (∀ p ∈ (rsSave env live priv).2.priv.packets, p.data = [])) := by
  by_cases ho : opened env
  · cases h0 : (snapshotOf env live priv).packets[0]? with
    | none =>
      obtain ⟨h1, h2, _⟩ := rsSave_no_slot env live priv ho h0
      exact Or.inr (Or.inl ⟨ho, rfl, h1, h2⟩)
    | some first =>
      cases hl : loopExit env (tsOffset first.pts) (tsOffset first.dts)
          (snapshotOf env live priv).packets (snapshotOf env live priv).tail 0 with
      | none =>
        obtain ⟨h1, h2, _, h4, h5⟩ := rsSave_loop_done env live priv first ho h0 hl
        exact Or.inr (Or.inr (Or.inr ⟨first, ho, rfl, hl, h1, h2, h4, h5⟩))
      | some e =>
        obtain ⟨h1, h2, _, h4⟩ := rsSave_loop_stops env live priv first e ho h0 hl
        exact Or.inr (Or.inr (Or.inl ⟨first, e, ho, rfl, hl, h1, h2, h4⟩))
  · obtain ⟨h1, _, _, h4⟩ := rsSave_not_opened env live priv ho
    refine Or.inl ⟨ho, h1, ?_⟩
    rcases h4 with h | h | h | h
    · exact ⟨4, by omega, h.2⟩
    · exact ⟨5, by omega, h.2.2⟩
    · exact ⟨6, by omega, h.2.2.2⟩
    · exact ⟨10, by omega, by rw [h.2.2.2.2]; rfl⟩

/-- The live ring is the same after every run. -/
theorem rsSave_live (env : Env) (live priv : RSPacketCircle) :
    (rsSave env live priv).2.live = live := by
  by_cases ho : opened env
  · cases h0 : (snapshotOf env live priv).packets[0]? with
    | none => exact (rsSave_no_slot env live priv ho h0).2.2
    | some first =>
      cases hl : loopExit env (tsOffset first.pts) (tsOffset first.dts)
          (snapshotOf env live priv).packets (snapshotOf env live priv).tail 0 with
      | none => exact (rsSave_loop_done env live priv first ho h0 hl).2.2.1
      | some e => exact (rsSave_loop_stops env live priv first e ho h0 hl).2.2.1
  · exact (rsSave_not_opened env live priv ho).2.1

/-- A per-packet action in the trace of `rsSave` is an action of its loop, run with the
offsets taken from slot 0 of the snapshot. -/
theorem rsSave_packet_event (env : Env) (live priv : RSPacketCircle) (e : Event)
    (he : e ∈ (rsSave env live priv).2.trace)
    (hk : ∃ j q, e = Event.av_packet_rescale_ts j q ∨ e = Event.av_write_frame j q) :
    ∃ first, (snapshotOf env live priv).packets[0]? = some first ∧
      e ∈ loopEvents env (tsOffset first.pts) (tsOffset first.dts)
        (snapshotOf env live priv).packets (snapshotOf env live priv).tail 0 := by
  obtain ⟨j, q, hk⟩ := hk
  rcases rsSave_shapes env live priv with h | h | h | h
  · obtain ⟨_, _, k, _, ht⟩ := h
    rw [ht] at he
    have := List.mem_of_mem_take he
    rcases hk with hk | hk <;> (rw [hk] at this; simp [openEvents] at this)
  · obtain ⟨_, _, _, ht⟩ := h
    rw [ht] at he
    rcases hk with hk | hk <;> (rw [hk] at he; simp [openEvents] at he)
  · obtain ⟨first, x, _, h0, _, _, ht, _⟩ := h
    refine ⟨first, h0, ?_⟩
    rw [ht] at he
    rcases hk with hk | hk <;>
      (rw [hk] at he ⊢; simpa [openEvents, snapshotEvents] using he)
  · obtain ⟨first, _, h0, _, _, ht, _⟩ := h
    refine ⟨first, h0, ?_⟩
    rw [ht] at he
    by_cases hc : rsCheck env.write_trailer_ret = true
    · rcases hk with hk | hk <;>
        (rw [hk] at he ⊢; simpa [openEvents, snapshotEvents, finishEvents, hc] using he)
    · rcases hk with hk | hk <;>
        (rw [hk] at he ⊢; simpa [openEvents, snapshotEvents, finishEvents, hc] using he)

/-- No element of the loop is one of the actions outside the loop. -/
theorem loopEvents_count (env : Env) (po dof : Int) (snap : List AVPacket) (r i : Nat)
    (e : Event) (hk : ∀ j q, e ≠ Event.av_packet_rescale_ts j q ∧ e ≠ Event.av_write_frame j q) :
    (loopEvents env po dof snap r i).count e = 0 := by
  apply List.count_eq_zero_of_not_mem
  intro he
  obtain ⟨j, q, h⟩ := loopEvents_only env po dof snap r i e he
  rcases h with h | h
  · exact (hk j q).1 h
  · exact (hk j q).2 h

/-! ## Arithmetic on `int64_t` and the trace of the loop inside a run -/

theorem wrap64_of_isInt64 (x : Int) (h : isInt64 x) : wrap64 x = x := by
  unfold isInt64 at h
  unfold wrap64
  omega

theorem wrap64_sentinel_sub (o : Int) (h : isInt64 o) :
    wrap64 (AV_NOPTS_VALUE - o) = AV_NOPTS_VALUE ↔ o = 0 := by
  unfold isInt64 at h
  unfold wrap64 AV_NOPTS_VALUE
  omega

theorem tsOffset_eq_zero_iff (x : Int) : tsOffset x = 0 ↔ x = AV_NOPTS_VALUE ∨ x = 0 := by
  unfold tsOffset
  by_cases h : x = AV_NOPTS_VALUE
  · simp [h]
  · simp [h]

theorem tsOffset_isInt64 (x : Int) (h : isInt64 x) : isInt64 (tsOffset x) := by
  unfold tsOffset
  by_cases hx : x = AV_NOPTS_VALUE
  · rw [if_pos hx]; unfold isInt64; omega
  · rw [if_neg hx]; exact h

/-- A packet handed to the rescaling step is a snapshot entry shifted by the two offsets
taken from slot 0. -/
theorem rsSave_rescaled_event (env : Env) (live priv : RSPacketCircle) (i : Nat) (q : AVPacket)
    (h : Event.av_packet_rescale_ts i q ∈ (rsSave env live priv).2.trace) :
    ∃ first p, (snapshotOf env live priv).packets[0]? = some first ∧
      i < (snapshotOf env live priv).tail ∧
      (snapshotOf env live priv).packets[i]? = some p ∧
      q = shiftTs (tsOffset first.pts) (tsOffset first.dts) p := by
  obtain ⟨first, h0, hm⟩ := rsSave_packet_event env live priv _ h ⟨i, q, Or.inl rfl⟩
  obtain ⟨j, p, _, h2, h3, h4⟩ := loopEvents_mem env _ _ _ _ _ _ hm
  rcases h4 with h4 | h4
  · cases h4
    exact ⟨first, p, h0, by omega, h3, rfl⟩
  · cases h4

/-- In a run that reaches the loop, the packets written are those written by the loop. -/
theorem rsSave_written_loop (env : Env) (live priv : RSPacketCircle) (first : AVPacket)
    (ho : opened env) (h0 : (snapshotOf env live priv).packets[0]? = some first) :
    written (rsSave env live priv).2.trace =
      written (loopEvents env (tsOffset first.pts) (tsOffset first.dts)
        (snapshotOf env live priv).packets (snapshotOf env live priv).tail 0) ∧
    rescaled (rsSave env live priv).2.trace =
      rescaled (loopEvents env (tsOffset first.pts) (tsOffset first.dts)
        (snapshotOf env live priv).packets (snapshotOf env live priv).tail 0) := by
  cases hl : loopExit env (tsOffset first.pts) (tsOffset first.dts)
      (snapshotOf env live priv).packets (snapshotOf env live priv).tail 0 with
  | none =>
    obtain ⟨_, ht, _⟩ := rsSave_loop_done env live priv first ho h0 hl
    rw [ht]
    by_cases hc : rsCheck env.write_trailer_ret = true <;>
      simp [hc, written_append, rescaled_append, written, rescaled, openEvents, snapshotEvents,
        finishEvents]
  | some e =>
    obtain ⟨_, ht, _⟩ := rsSave_loop_stops env live priv first e ho h0 hl
    rw [ht]
    simp [written_append, rescaled_append, written, rescaled, openEvents, snapshotEvents]

/-- The first packet written, if any, is the one made from slot 0. -/
theorem rsSave_written_head (env : Env) (live priv : RSPacketCircle) (i : Nat) (q : AVPacket)
    (h : (written (rsSave env live priv).2.trace).head? = some (i, q)) :
    ∃ first, (snapshotOf env live priv).packets[0]? = some first ∧ i = 0 ∧
      q = outPacket env (tsOffset first.pts) (tsOffset first.dts) first := by
  have hmem : Event.av_write_frame i q ∈ (rsSave env live priv).2.trace := by
    rw [← mem_written_iff]
    exact List.mem_of_mem_head? h
  obtain ⟨first, h0, _⟩ := rsSave_packet_event env live priv _ hmem ⟨i, q, Or.inr rfl⟩
  have ho : opened env := by
    by_contra hno
    obtain ⟨_, _, _, h4⟩ := rsSave_not_opened env live priv hno
    have hnil : written (rsSave env live priv).2.trace = [] := by
      rcases h4 with h4 | h4 | h4 | h4
      · rw [h4.2]; rfl
      · rw [h4.2.2]; rfl
      · rw [h4.2.2.2]; rfl
      · rw [h4.2.2.2.2]; rfl
    rw [hnil] at h
    simp at h
  rw [(rsSave_written_loop env live priv first ho h0).1] at h
  refine ⟨first, h0, ?_⟩
  cases ht : (snapshotOf env live priv).tail with
  | zero =>
    rw [ht] at h
    simp [loopEvents, written] at h
  | succ t =>
    rw [ht, loopEvents_succ_some env _ _ _ t 0 first h0] at h
    simp only [written, List.head?_cons, Option.some.injEq, Prod.mk.injEq] at h
    exact ⟨h.1.symm, h.2.symm⟩

/-- In a run that reaches a non-empty snapshot, slot 0 is handed to the rescaling step and
to the container writer first. -/
theorem rsSave_first_packet (env : Env) (live priv : RSPacketCircle) (first : AVPacket)
    (ho : opened env) (hne : 0 < (snapshotOf env live priv).tail)
    (h0 : (snapshotOf env live priv).packets[0]? = some first) :
    (written (rsSave env live priv).2.trace).head?
      = some (0, outPacket env (tsOffset first.pts) (tsOffset first.dts) first) ∧
    Event.av_packet_rescale_ts 0 (shiftTs (tsOffset first.pts) (tsOffset first.dts) first)
      ∈ (rsSave env live priv).2.trace := by
  obtain ⟨hw, hr⟩ := rsSave_written_loop env live priv first ho h0
  rw [← mem_rescaled_iff, hw, hr]
  obtain ⟨t, ht⟩ : ∃ t, (snapshotOf env live priv).tail = t + 1 := ⟨_, (Nat.succ_pred_eq_of_pos hne).symm⟩
  rw [ht, loopEvents_succ_some env _ _ _ t 0 first h0]
  simp [written, rescaled]

/-- The loop reaches slot `i + k` as soon as every write before it succeeded: the `k`-th
packet it hands to the rescaling step and to the writer is the one made from that slot. -/
theorem loopEvents_reaches (env : Env) (po dof : Int) (snap : List AVPacket) :
    ∀ (r i k : Nat), k < r → i + r ≤ snap.length →
      (∀ j q, j < i + k → Event.av_write_frame j q ∈ loopEvents env po dof snap r i →
        0 ≤ env.write_frame_ret j q) →
      ∃ p, snap[i + k]? = some p ∧
        (rescaled (loopEvents env po dof snap r i))[k]? = some (i + k, shiftTs po dof p) ∧
        (written (loopEvents env po dof snap r i))[k]?
          = some (i + k, outPacket env po dof p) := by
  intro r
  induction r with
  | zero => intro i k hk; omega
  | succ r ih =>
    intro i k hk hlen hok
    have hlt : i < snap.length := by omega
    have hs : snap[i]? = some snap[i] := List.getElem?_eq_getElem hlt
    have hev := loopEvents_succ_some env po dof snap r i snap[i] hs
    cases k with
    | zero =>
      refine ⟨snap[i], hs, ?_, ?_⟩
      · rw [hev]; simp [rescaled]
      · rw [hev]; simp [written]
    | succ k =>
      have hw0 : Event.av_write_frame i (outPacket env po dof snap[i])
          ∈ loopEvents env po dof snap (r + 1) i := by
        rw [hev]; simp
      have hret := hok i _ (by omega) hw0
      have hc : rsCheck (env.write_frame_ret i (outPacket env po dof snap[i])) = true :=
        (rsCheck_true_iff _).2 hret
      have hev2 : loopEvents env po dof snap (r + 1) i =
          Event.av_packet_rescale_ts i (shiftTs po dof snap[i]) ::
            Event.av_write_frame i (outPacket env po dof snap[i]) ::
              loopEvents env po dof snap r (i + 1) := by
        rw [hev, if_pos hc]
      obtain ⟨p, hp1, hp2, hp3⟩ := ih (i + 1) k (by omega) (by omega)
        (by
          intro j q hj hm
          apply hok j q (by omega)
          rw [hev2]
          exact List.mem_cons_of_mem _ (List.mem_cons_of_mem _ hm))
      have hidx : i + 1 + k = i + (k + 1) := by omega
      rw [hidx] at hp1 hp2 hp3
      refine ⟨p, hp1, ?_, ?_⟩
      · rw [hev2]
        simp only [rescaled, List.getElem?_cons_succ]
        exact hp2
      · rw [hev2]
        simp only [rescaled, written, List.getElem?_cons_succ]
        exact hp3

/-- In a run that reaches the snapshot, entry `i` is handed to the rescaling step and to the
writer, at position `i`, as soon as every write of an earlier entry succeeded. -/
theorem rsSave_entry_reached (env : Env) (live priv : RSPacketCircle) (first : AVPacket)
    (ho : opened env)
    (hwf : (snapshotOf env live priv).tail ≤ (snapshotOf env live priv).packets.length)
    (h0 : (snapshotOf env live priv).packets[0]? = some first)
    (i : Nat) (hi : i < (snapshotOf env live priv).tail)
    (hok : ∀ j q, j < i → Event.av_write_frame j q ∈ (rsSave env live priv).2.trace →
      0 ≤ env.write_frame_ret j q) :
    ∃ p, (snapshotOf env live priv).packets[i]? = some p ∧
      (rescaled (rsSave env live priv).2.trace)[i]?
        = some (i, shiftTs (tsOffset first.pts) (tsOffset first.dts) p) ∧
      (written (rsSave env live priv).2.trace)[i]?
        = some (i, outPacket env (tsOffset first.pts) (tsOffset first.dts) p) := by
  obtain ⟨hw, hr⟩ := rsSave_written_loop env live priv first ho h0
  have h := loopEvents_reaches env (tsOffset first.pts) (tsOffset first.dts)
    (snapshotOf env live priv).packets (snapshotOf env live priv).tail 0 i hi
    (by omega)
    (by
      intro j q hj hm
      apply hok j q (by omega)
      rw [← mem_written_iff, hw, mem_written_iff]
      exact hm)
  simp only [Nat.zero_add] at h
  rw [hw, hr]
  exact h

/-! ## The claims -/

/-- C7: for every state of the live ring of the encoder (entries, length and cursor), every
private ring and every behaviour of the collaborators, the live ring after `rsSave` is the
live ring before it. -/
theorem rsSave_leaves_live_buffer_unchanged (env : Env) (live priv : RSPacketCircle) :
    (rsSave env live priv).2.live = live ∧
    (rsSave env live priv).2.live.packets = live.packets ∧
    (rsSave env live priv).2.live.tail = live.tail ∧
    (rsSave env live priv).2.live.head = live.head := by
  rw [rsSave_live]
  exact ⟨rfl, rfl, rfl, rfl⟩

/-- C5, refuted as stated: when the header write fails the output file has been opened and
the format context allocated, and `rsSave` releases neither. -/
theorem rsSave_header_failure_releases_nothing :
    (rsSave { envOk with write_header_ret := -1 } (liveOf [pkt 1 300 299]) privBlank).1
      = Exit.aborted ∧
    (rsSave { envOk with write_header_ret := -1 } (liveOf [pkt 1 300 299]) privBlank).2.trace.count
      Event.avio_open = 1 ∧
    (rsSave { envOk with write_header_ret := -1 } (liveOf [pkt 1 300 299]) privBlank).2.trace.count
      Event.avio_closep = 0 ∧
    (rsSave { envOk with write_header_ret := -1 } (liveOf [pkt 1 300 299]) privBlank).2.trace.count
      Event.avformat_free_context = 0 := by
  decide

/-- C5, amended: on the path on which `rsSave` returns, the output file handle and the format
context are each acquired once and released once; on every other exit path `rsSave` performs
no release at all. -/
theorem rsSave_releases_exactly_on_return (env : Env) (live priv : RSPacketCircle) :
    ((rsSave env live priv).1 = Exit.returned →
      (rsSave env live priv).2.trace.count Event.avformat_alloc_output_context2 = 1 ∧
      (rsSave env live priv).2.trace.count Event.avio_open = 1 ∧
      (rsSave env live priv).2.trace.count Event.avio_closep = 1 ∧
      (rsSave env live priv).2.trace.count Event.avformat_free_context = 1) ∧
    ((rsSave env live priv).1 ≠ Exit.returned →
      (rsSave env live priv).2.trace.count Event.avio_closep = 0 ∧
      (rsSave env live priv).2.trace.count Event.avformat_free_context = 0) := by
  have hc1 := fun po dof snap r i => loopEvents_count env po dof snap r i
    Event.avformat_alloc_output_context2 (by intro j q; constructor <;> simp)
  have hc2 := fun po dof snap r i => loopEvents_count env po dof snap r i
    Event.avio_open (by intro j q; constructor <;> simp)
  have hc3 := fun po dof snap r i => loopEvents_count env po dof snap r i
    Event.avio_closep (by intro j q; constructor <;> simp)
  have hc4 := fun po dof snap r i => loopEvents_count env po dof snap r i
    Event.avformat_free_context (by intro j q; constructor <;> simp)
  rcases rsSave_shapes env live priv with h | h | h | h
  · obtain ⟨_, hx, k, _, ht⟩ := h
    rw [hx, ht]
    refine ⟨fun h => (nomatch h), fun _ => ?_⟩
    constructor <;>
      (apply List.count_eq_zero_of_not_mem
       intro hm
       have := List.mem_of_mem_take hm
       simp [openEvents] at this)
  · obtain ⟨_, _, hx, ht⟩ := h
    rw [hx, ht]
    refine ⟨fun h => (nomatch h), fun _ => ?_⟩
    constructor <;> simp [openEvents]
  · obtain ⟨first, x, _, _, hl, hx, ht, _⟩ := h
    rw [hx, ht]
    have hxne : x ≠ Exit.returned := by
      rcases loopExit_some env _ _ _ _ _ x hl with h | h
      · rw [h]; simp
      · rw [h.1]; simp
    refine ⟨fun h => absurd h hxne, fun _ => ?_⟩
    simp only [List.count_append, hc3, hc4]
    constructor <;> simp [openEvents, snapshotEvents]
  · obtain ⟨first, _, _, _, hx, ht, _⟩ := h
    rw [hx, ht]
    by_cases hc : rsCheck env.write_trailer_ret = true
    · simp only [hc, if_true, List.count_append, hc1, hc2, hc3, hc4]
      refine ⟨fun _ => ?_, fun h => absurd rfl h⟩
      simp [openEvents, snapshotEvents, finishEvents]
    · simp only [hc, List.count_append, hc3, hc4]
      refine ⟨fun h => by simp at h, fun _ => ?_⟩
      simp [openEvents, snapshotEvents, finishEvents]

/-- C9: in every run of `rsSave` that returns, the trace is the opening sequence (the file is
opened, later the header is written), then the snapshot is taken, then come the per-packet
actions and nothing else, then the snapshot is cleared, the trailer is written and the file is
closed, in this order. -/
theorem rsSave_step_order (env : Env) (live priv : RSPacketCircle)
    (h : (rsSave env live priv).1 = Exit.returned) :
    ∃ ws : List Event,
      (rsSave env live priv).2.trace =
        [Event.av_bprint_init, Event.rsPathJoin, Event.av_log_saving,
         Event.avformat_alloc_output_context2, Event.av_opt_set, Event.avio_open,
         Event.avformat_new_stream, Event.avcodec_parameters_from_context,
         Event.av_dump_format, Event.avformat_write_header,
         Event.rsPacketCircleCopy, Event.read_pts 0, Event.read_dts 0] ++ ws ++
        [Event.rsPacketCircleClear, Event.av_write_trailer, Event.avio_closep,
         Event.avformat_free_context, Event.av_log_success, Event.av_bprint_finalize] ∧
      (∀ e ∈ ws, ∃ i p, e = Event.av_packet_rescale_ts i p ∨ e = Event.av_write_frame i p) ∧
      (written ws).length = (snapshotOf env live priv).tail := by
  rcases rsSave_shapes env live priv with hs | hs | hs | hs
  · obtain ⟨_, hx, _⟩ := hs
    rw [hx] at h; cases h
  · obtain ⟨_, _, hx, _⟩ := hs
    rw [hx] at h; cases h
  · obtain ⟨first, x, _, _, hl, hx, _, _⟩ := hs
    rw [hx] at h
    rw [h] at hl
    rcases loopExit_some env _ _ _ _ _ _ hl with h1 | h1
    · cases h1
    · cases h1.1
  · obtain ⟨first, _, _, hl, hx, ht, _⟩ := hs
    rw [hx] at h
    have hc : rsCheck env.write_trailer_ret = true := by
      by_contra hc
      simp [hc] at h
    refine ⟨loopEvents env (tsOffset first.pts) (tsOffset first.dts)
        (snapshotOf env live priv).packets (snapshotOf env live priv).tail 0, ?_, ?_, ?_⟩
    · rw [ht]
      simp [hc, openEvents, snapshotEvents, finishEvents]
    · intro e he
      exact loopEvents_only env _ _ _ _ _ e he
    · exact (written_loopEvents env _ _ _ _ _ hl).1

theorem rsSave_step_order_witness :
    (rsSave envOk (liveOf [pkt 1 300 299, pkt 2 301 300]) privBlank).1 = Exit.returned ∧
    ∃ ws : List Event,
      (rsSave envOk (liveOf [pkt 1 300 299, pkt 2 301 300]) privBlank).2.trace =
        [Event.av_bprint_init, Event.rsPathJoin, Event.av_log_saving,
         Event.avformat_alloc_output_context2, Event.av_opt_set, Event.avio_open,
         Event.avformat_new_stream, Event.avcodec_parameters_from_context,
         Event.av_dump_format, Event.avformat_write_header,
         Event.rsPacketCircleCopy, Event.read_pts 0, Event.read_dts 0] ++ ws ++
        [Event.rsPacketCircleClear, Event.av_write_trailer, Event.avio_closep,
         Event.avformat_free_context, Event.av_log_success, Event.av_bprint_finalize] ∧
      (∀ e ∈ ws, ∃ i p, e = Event.av_packet_rescale_ts i p ∨ e = Event.av_write_frame i p) ∧
      (written ws).length
        = (snapshotOf envOk (liveOf [pkt 1 300 299, pkt 2 301 300]) privBlank).tail :=
  ⟨by decide, rsSave_step_order envOk (liveOf [pkt 1 300 299, pkt 2 301 300]) privBlank
    (by decide)⟩

/-- C3, refuted as stated: on an empty snapshot `rsSave` returns, and it has read the two
timestamps of slot 0 of the snapshot. -/
theorem rsSave_empty_snapshot_reads_slot_zero :
    (snapshotOf envOk (liveOf []) privBlank).tail = 0 ∧
    (rsSave envOk (liveOf []) privBlank).1 = Exit.returned ∧
    Event.read_pts 0 ∈ (rsSave envOk (liveOf []) privBlank).2.trace ∧
    Event.read_dts 0 ∈ (rsSave envOk (liveOf []) privBlank).2.trace := by
  decide

/-- C3, amended: when the snapshot holds zero packets, its storage has a slot 0 and every
checked call succeeds, `rsSave` returns; its actions are exactly the opening sequence with the
header write, the copy, the reads of the two timestamps of slot 0, the clear, the trailer
write and the closing sequence: no packet is shifted, rescaled or written. -/
theorem rsSave_empty_snapshot (env : Env) (live priv : RSPacketCircle)
    (ho : opened env) (ht : 0 ≤ env.write_trailer_ret)
    (h0 : (snapshotOf env live priv).tail = 0)
    (hs : 0 < (snapshotOf env live priv).packets.length) :
    (rsSave env live priv).1 = Exit.returned ∧
    (rsSave env live priv).2.trace =
      [Event.av_bprint_init, Event.rsPathJoin, Event.av_log_saving,
       Event.avformat_alloc_output_context2, Event.av_opt_set, Event.avio_open,
       Event.avformat_new_stream, Event.avcodec_parameters_from_context,
       Event.av_dump_format, Event.avformat_write_header,
       Event.rsPacketCircleCopy, Event.read_pts 0, Event.read_dts 0,
       Event.rsPacketCircleClear, Event.av_write_trailer, Event.avio_closep,
       Event.avformat_free_context, Event.av_log_success, Event.av_bprint_finalize] ∧
    rescaled (rsSave env live priv).2.trace = [] ∧
    written (rsSave env live priv).2.trace = [] := by
  cases hf : (snapshotOf env live priv).packets[0]? with
  | none =>
    have := List.getElem?_eq_none_iff.1 hf
    omega
  | some first =>
    have hl : loopExit env (tsOffset first.pts) (tsOffset first.dts)
        (snapshotOf env live priv).packets (snapshotOf env live priv).tail 0 = none := by
      rw [h0]; rfl
    obtain ⟨h1, h2, _⟩ := rsSave_loop_done env live priv first ho hf hl
    have hc : rsCheck env.write_trailer_ret = true := (rsCheck_true_iff _).2 ht
    rw [h0] at h2
    have htr : (rsSave env live priv).2.trace =
        openEvents ++ snapshotEvents ++ [] ++ finishEvents := by
      rw [h2, hc]; rfl
    rw [h1, htr, hc]
    exact ⟨rfl, rfl, rfl, rfl⟩

theorem rsSave_empty_snapshot_witness :
    (rsSave envOk (liveOf []) privBlank).1 = Exit.returned ∧
    (rsSave envOk (liveOf []) privBlank).2.trace =
      [Event.av_bprint_init, Event.rsPathJoin, Event.av_log_saving,
       Event.avformat_alloc_output_context2, Event.av_opt_set, Event.avio_open,
       Event.avformat_new_stream, Event.avcodec_parameters_from_context,
       Event.av_dump_format, Event.avformat_write_header,
       Event.rsPacketCircleCopy, Event.read_pts 0, Event.read_dts 0,
       Event.rsPacketCircleClear, Event.av_write_trailer, Event.avio_closep,
       Event.avformat_free_context, Event.av_log_success, Event.av_bprint_finalize] ∧
    rescaled (rsSave envOk (liveOf []) privBlank).2.trace = [] ∧
    written (rsSave envOk (liveOf []) privBlank).2.trace = [] :=
  rsSave_empty_snapshot envOk (liveOf []) privBlank (by decide) (by decide) (by decide)
    (by decide)

/-- C4, refuted as stated: when the write of the packet with index 1 fails, `rsSave` is
aborted there, the clear step is never performed and the snapshot still holds its three
packets. -/
theorem rsSave_write_failure_skips_clear :
    (rsSave (envWriteFails 1) (liveOf [pkt 1 300 299, pkt 2 301 300, pkt 3 302 301])
      privBlank).1 = Exit.aborted ∧
    Event.rsPacketCircleClear ∉
      (rsSave (envWriteFails 1) (liveOf [pkt 1 300 299, pkt 2 301 300, pkt 3 302 301])
        privBlank).2.trace ∧
    (rsSave (envWriteFails 1) (liveOf [pkt 1 300 299, pkt 2 301 300, pkt 3 302 301])
      privBlank).2.priv.tail = 3 ∧
    ((rsSave (envWriteFails 1) (liveOf [pkt 1 300 299, pkt 2 301 300, pkt 3 302 301])
      privBlank).2.priv.packets.map AVPacket.data).take 3 = [[1], [2], [3]] := by
  decide

/-- C4, amended: in a run that reaches the snapshot, on a snapshot whose entries lie within
its storage, the clear step is performed exactly when every attempted packet write succeeds
(whatever the trailer write returns afterwards), and it leaves the snapshot empty with every
payload released; when a packet write fails the run is aborted without the clear step and the
snapshot keeps its packets. -/
theorem rsSave_clears_iff_writes_succeed (env : Env) (live priv : RSPacketCircle)
    (ho : opened env)
    (hwf : (snapshotOf env live priv).tail ≤ (snapshotOf env live priv).packets.length)
    (hs : 0 < (snapshotOf env live priv).packets.length) :
    (Event.rsPacketCircleClear ∈ (rsSave env live priv).2.trace ↔
      ∀ j q, Event.av_write_frame j q ∈ (rsSave env live priv).2.trace →
        0 ≤ env.write_frame_ret j q) ∧
    (Event.rsPacketCircleClear ∈ (rsSave env live priv).2.trace →
      (rsSave env live priv).2.priv.tail = 0 ∧
      ∀ p ∈ (rsSave env live priv).2.priv.packets, p.data = []) ∧
    (Event.rsPacketCircleClear ∉ (rsSave env live priv).2.trace →
      (rsSave env live priv).1 = Exit.aborted ∧
      (rsSave env live priv).2.priv.tail = (snapshotOf env live priv).tail) := by
  rcases rsSave_shapes env live priv with h | h | h | h
  · exact absurd ho h.1
  · have := List.getElem?_eq_none_iff.1 h.2.1
    omega
  · obtain ⟨first, x, _, _, hl, hx, ht, htail⟩ := h
    have hxa : x = Exit.aborted := by
      rcases loopExit_some env _ _ _ _ _ x hl with h | h
      · exact h
      · omega
    subst hxa
    obtain ⟨l, j, q, hle, hf, _, _⟩ := (loopEvents_shape env _ _ _ _ _).2 hl
    have hnc : Event.rsPacketCircleClear ∉ (rsSave env live priv).2.trace := by
      rw [ht]
      intro hm
      simp only [List.mem_append] at hm
      rcases hm with (hm | hm) | hm
      · simp [openEvents] at hm
      · simp [snapshotEvents] at hm
      · obtain ⟨j2, q2, h2⟩ := loopEvents_only env _ _ _ _ _ _ hm
        rcases h2 with h2 | h2 <;> cases h2
    have hw : Event.av_write_frame j q ∈ (rsSave env live priv).2.trace := by
      rw [ht, hle]; simp
    refine ⟨⟨fun hm => absurd hm hnc, fun hall => ?_⟩, fun hm => absurd hm hnc,
      fun _ => ⟨hx, htail⟩⟩
    have := hall j q hw
    simp only [stepFailed] at hf
    omega
  · obtain ⟨first, _, _, hl, _, ht, htail, hdata⟩ := h
    have hc : Event.rsPacketCircleClear ∈ (rsSave env live priv).2.trace := by
      rw [ht]
      by_cases hc : rsCheck env.write_trailer_ret = true <;> simp [hc, finishEvents]
    refine ⟨⟨fun _ => ?_, fun _ => hc⟩, fun _ => ⟨htail, hdata⟩, fun hn => absurd hc hn⟩
    intro j q hw
    obtain ⟨first2, hf2, hm⟩ := rsSave_packet_event env live priv _ hw ⟨j, q, Or.inr rfl⟩
    have hfe : first2 = first := by
      have := hf2.symm.trans (by assumption : (snapshotOf env live priv).packets[0]? = some first)
      exact Option.some.inj this
    subst hfe
    have hnf := (loopEvents_shape env _ _ _ _ _).1 (by rw [hl]; simp) _ hm
    simp only [stepFailed] at hnf
    omega

theorem rsSave_clears_iff_writes_succeed_witness :
    (Event.rsPacketCircleClear ∈
        (rsSave (envWriteFails 1) (liveOf [pkt 1 300 299, pkt 2 301 300]) privBlank).2.trace ↔
      ∀ j q, Event.av_write_frame j q ∈
          (rsSave (envWriteFails 1) (liveOf [pkt 1 300 299, pkt 2 301 300]) privBlank).2.trace →
        0 ≤ (envWriteFails 1).write_frame_ret j q) ∧
    (Event.rsPacketCircleClear ∈
        (rsSave (envWriteFails 1) (liveOf [pkt 1 300 299, pkt 2 301 300]) privBlank).2.trace →
      (rsSave (envWriteFails 1) (liveOf [pkt 1 300 299, pkt 2 301 300]) privBlank).2.priv.tail
        = 0 ∧
      ∀ p ∈ (rsSave (envWriteFails 1) (liveOf [pkt 1 300 299, pkt 2 301 300])
          privBlank).2.priv.packets, p.data = []) ∧
    (Event.rsPacketCircleClear ∉
        (rsSave (envWriteFails 1) (liveOf [pkt 1 300 299, pkt 2 301 300]) privBlank).2.trace →
      (rsSave (envWriteFails 1) (liveOf [pkt 1 300 299, pkt 2 301 300]) privBlank).1
        = Exit.aborted ∧
      (rsSave (envWriteFails 1) (liveOf [pkt 1 300 299, pkt 2 301 300]) privBlank).2.priv.tail
        = (snapshotOf (envWriteFails 1) (liveOf [pkt 1 300 299, pkt 2 301 300]) privBlank).tail) :=
  rsSave_clears_iff_writes_succeed (envWriteFails 1) (liveOf [pkt 1 300 299, pkt 2 301 300])
    privBlank (by decide) (by decide) (by decide)

/-- C6: in a run that reaches the snapshot, on a snapshot of `n` entries lying within its
storage, if every attempted packet write succeeds then `rsSave` hands exactly `n` packets to the
container writer, and for every `k < n` the `k`-th packet written carries the index `k` and the
payload of the `k`-th snapshot entry. -/
theorem rsSave_writes_every_entry_in_order (env : Env) (live priv : RSPacketCircle)
    (ho : opened env)
    (hwf : (snapshotOf env live priv).tail ≤ (snapshotOf env live priv).packets.length)
    (hok : ∀ j q, Event.av_write_frame j q ∈ (rsSave env live priv).2.trace →
      0 ≤ env.write_frame_ret j q) :
    (written (rsSave env live priv).2.trace).length = (snapshotOf env live priv).tail ∧
    ∀ k, k < (snapshotOf env live priv).tail →
      ∃ p q, (snapshotOf env live priv).packets[k]? = some p ∧
        (written (rsSave env live priv).2.trace)[k]? = some (k, q) ∧ q.data = p.data := by
  rcases rsSave_shapes env live priv with h | h | h | h
  · exact absurd ho h.1
  · obtain ⟨_, h0, _, ht⟩ := h
    have hlen := List.getElem?_eq_none_iff.1 h0
    have htail : (snapshotOf env live priv).tail = 0 := by omega
    rw [ht, htail]
    refine ⟨by simp [written_append, written, openEvents], fun k hk => by omega⟩
  · obtain ⟨first, x, _, _, hl, _, ht, _⟩ := h
    exfalso
    rcases loopExit_some env _ _ _ _ _ x hl with h | h
    · subst h
      obtain ⟨l, j, q, hle, hf, _, _⟩ := (loopEvents_shape env _ _ _ _ _).2 hl
      have hw : Event.av_write_frame j q ∈ (rsSave env live priv).2.trace := by
        rw [ht, hle]; simp
      have := hok j q hw
      simp only [stepFailed] at hf
      omega
    · omega
  · obtain ⟨first, _, _, hl, _, ht, _⟩ := h
    obtain ⟨h1, h2⟩ := written_loopEvents env _ _ _ _ _ hl
    have hw : written (rsSave env live priv).2.trace =
        written (loopEvents env (tsOffset first.pts) (tsOffset first.dts)
          (snapshotOf env live priv).packets (snapshotOf env live priv).tail 0) := by
      rw [ht]
      by_cases hc : rsCheck env.write_trailer_ret = true <;>
        simp [hc, written_append, written, openEvents, snapshotEvents, finishEvents]
    rw [hw]
    refine ⟨h1, fun k hk => ?_⟩
    obtain ⟨p, hp1, hp2⟩ := h2 k hk
    rw [Nat.zero_add] at hp1 hp2
    exact ⟨p, _, hp1, hp2, rfl⟩

theorem rsSave_writes_every_entry_in_order_witness :
    (written (rsSave envOk (liveOf [pkt 1 300 299, pkt 2 301 300, pkt 3 302 301])
      privBlank).2.trace).length
      = (snapshotOf envOk (liveOf [pkt 1 300 299, pkt 2 301 300, pkt 3 302 301]) privBlank).tail ∧
    ∀ k, k < (snapshotOf envOk (liveOf [pkt 1 300 299, pkt 2 301 300, pkt 3 302 301])
        privBlank).tail →
      ∃ p q, (snapshotOf envOk (liveOf [pkt 1 300 299, pkt 2 301 300, pkt 3 302 301])
          privBlank).packets[k]? = some p ∧
        (written (rsSave envOk (liveOf [pkt 1 300 299, pkt 2 301 300, pkt 3 302 301])
          privBlank).2.trace)[k]? = some (k, q) ∧ q.data = p.data :=
  rsSave_writes_every_entry_in_order envOk
    (liveOf [pkt 1 300 299, pkt 2 301 300, pkt 3 302 301]) privBlank (by decide) (by decide)
    (fun _ _ _ => Int.le_refl 0)

/-- C8: if a checked muxing step of `rsSave` (allocate the writer, set the option, open the
file, write the header, write a packet, write the trailer) is performed and returns a failure
code, it is the last action of the run: nothing is performed after it, the run is aborted and
the success message is not logged; when the step is the write of packet `i`, every packet
written has an index at most `i` and no trailer is written. -/
theorem rsSave_aborts_at_failed_step (env : Env) (live priv : RSPacketCircle)
    (l r : List Event) (e : Event)
    (ht : (rsSave env live priv).2.trace = l ++ e :: r) (hf : stepFailed env e) :
    r = [] ∧ (rsSave env live priv).1 = Exit.aborted ∧
    Event.av_log_success ∉ (rsSave env live priv).2.trace ∧
    (∀ i p, e = Event.av_write_frame i p →
      (∀ j q, Event.av_write_frame j q ∈ (rsSave env live priv).2.trace → j ≤ i) ∧
      Event.av_write_trailer ∉ (rsSave env live priv).2.trace) := by
  have hopenOk : opened env → ∀ y ∈ openEvents ++ snapshotEvents, ¬ stepFailed env y := by
    intro ho y hy
    obtain ⟨h1, h2, h3, h4⟩ := ho
    simp only [openEvents, snapshotEvents, List.cons_append, List.nil_append, List.mem_cons,
      List.mem_singleton, List.not_mem_nil, or_false] at hy
    rcases hy with hy | hy | hy | hy | hy | hy | hy | hy | hy | hy | hy | hy | hy <;>
      (rw [hy]; simp only [stepFailed, not_false_eq_true]) <;> omega
  rcases rsSave_shapes env live priv with h | h | h | h
  · -- cut in the opening sequence
    obtain ⟨hno, hx, _⟩ := h
    obtain ⟨_, _, _, h4⟩ := rsSave_not_opened env live priv hno
    rcases h4 with ⟨ha, htr⟩ | ⟨ha, hb, htr⟩ | ⟨ha, hb, hc, htr⟩ | ⟨ha, hb, hc, hd, htr⟩
    · have hsplit : openEvents.take 3 ++ [Event.avformat_alloc_output_context2] = l ++ e :: r := by
        rw [← ht, htr]; rfl
      obtain ⟨hr, _, he⟩ := failed_is_last env _ _
        (by intro y hy; simp [openEvents] at hy; rcases hy with hy | hy | hy <;>
              (rw [hy]; simp [stepFailed])) l r e hsplit hf
      refine ⟨hr, hx, by rw [htr]; simp [openEvents], ?_⟩
      intro i p hep
      rw [he] at hep; cases hep
    · have hsplit : openEvents.take 4 ++ [Event.av_opt_set] = l ++ e :: r := by
        rw [← ht, htr]; rfl
      obtain ⟨hr, _, he⟩ := failed_is_last env _ _
        (by intro y hy; simp [openEvents] at hy; rcases hy with hy | hy | hy | hy <;>
              (rw [hy]; simp [stepFailed]); omega) l r e hsplit hf
      refine ⟨hr, hx, by rw [htr]; simp [openEvents], ?_⟩
      intro i p hep
      rw [he] at hep; cases hep
    · have hsplit : openEvents.take 5 ++ [Event.avio_open] = l ++ e :: r := by
        rw [← ht, htr]; rfl
      obtain ⟨hr, _, he⟩ := failed_is_last env _ _
        (by intro y hy; simp [openEvents] at hy; rcases hy with hy | hy | hy | hy | hy <;>
              (rw [hy]; simp [stepFailed]) <;> omega) l r e hsplit hf
      refine ⟨hr, hx, by rw [htr]; simp [openEvents], ?_⟩
      intro i p hep
      rw [he] at hep; cases hep
    · have hsplit : openEvents.take 9 ++ [Event.avformat_write_header] = l ++ e :: r := by
        rw [← ht, htr]; rfl
      obtain ⟨hr, _, he⟩ := failed_is_last env _ _
        (by intro y hy; simp [openEvents] at hy
            rcases hy with hy | hy | hy | hy | hy | hy | hy | hy | hy <;>
              (rw [hy]; simp [stepFailed]) <;> omega) l r e hsplit hf
      refine ⟨hr, hx, by rw [htr]; simp [openEvents], ?_⟩
      intro i p hep
      rw [he] at hep; cases hep
  · -- no storage slot: no step failed
    obtain ⟨ho, _, _, htr⟩ := h
    exfalso
    refine no_failed_split env _ l r e ?_ (htr.symm.trans ht) hf
    intro y hy
    simp only [List.mem_append, List.mem_singleton] at hy
    rcases hy with hy | hy
    · exact hopenOk ho y (List.mem_append_left _ hy)
    · rw [hy]; simp [stepFailed]
  · -- stopped inside the loop
    obtain ⟨first, x, ho, _, hl, hx, htr, _⟩ := h
    by_cases hxa : x = Exit.aborted
    · subst hxa
      obtain ⟨l2, j, q, hle, hfj, hl2, hidx⟩ := (loopEvents_shape env _ _ _ _ _).2 hl
      have hsplit : (openEvents ++ snapshotEvents ++ l2) ++ [Event.av_write_frame j q]
          = l ++ e :: r := by
        rw [← ht, htr, hle]; simp
      have hX : ∀ y ∈ openEvents ++ snapshotEvents ++ l2, ¬ stepFailed env y := by
        intro y hy
        rcases List.mem_append.1 hy with hy | hy
        · exact hopenOk ho y hy
        · exact hl2 y hy
      obtain ⟨hr, _, he⟩ := failed_is_last env _ _ hX l r e hsplit hf
      have htr2 : (rsSave env live priv).2.trace
          = openEvents ++ snapshotEvents ++ l2 ++ [Event.av_write_frame j q] := by
        rw [htr, hle]; simp
      have hl2only : ∀ y ∈ l2, ∃ a b, y = Event.av_packet_rescale_ts a b ∨
          y = Event.av_write_frame a b := by
        intro y hy
        apply loopEvents_only env (tsOffset first.pts) (tsOffset first.dts)
          (snapshotOf env live priv).packets (snapshotOf env live priv).tail 0
        rw [hle]; exact List.mem_append_left _ hy
      refine ⟨hr, hx, ?_, ?_⟩
      · rw [htr2]
        intro hm
        simp only [List.mem_append, List.mem_singleton] at hm
        rcases hm with ((hm | hm) | hm) | hm
        · simp [openEvents] at hm
        · simp [snapshotEvents] at hm
        · obtain ⟨a, b, hab⟩ := hl2only _ hm
          rcases hab with hab | hab <;> cases hab
        · cases hm
      · intro i p hep
        rw [he] at hep
        cases hep
        constructor
        · intro j2 q2 hm
          rw [htr2] at hm
          simp only [List.mem_append, List.mem_singleton] at hm
          rcases hm with ((hm | hm) | hm) | hm
          · simp [openEvents] at hm
          · simp [snapshotEvents] at hm
          · exact Nat.le_of_lt (hidx j2 q2 hm)
          · cases hm; exact Nat.le_refl _
        · rw [htr2]
          intro hm
          simp only [List.mem_append, List.mem_singleton] at hm
          rcases hm with ((hm | hm) | hm) | hm
          · simp [openEvents] at hm
          · simp [snapshotEvents] at hm
          · obtain ⟨a, b, hab⟩ := hl2only _ hm
            rcases hab with hab | hab <;> cases hab
          · cases hm
    · exfalso
      refine no_failed_split env _ l r e ?_ (htr.symm.trans ht) hf
      intro y hy
      rcases List.mem_append.1 hy with hy | hy
      · exact hopenOk ho y hy
      · exact (loopEvents_shape env _ _ _ _ _).1
          (by rw [hl]; intro hc; exact hxa (Option.some.inj hc)) y hy
  · -- the loop ran to its end
    obtain ⟨first, ho, _, hl, hx, htr, _⟩ := h
    have hL : ∀ y ∈ loopEvents env (tsOffset first.pts) (tsOffset first.dts)
        (snapshotOf env live priv).packets (snapshotOf env live priv).tail 0,
        ¬ stepFailed env y :=
      (loopEvents_shape env _ _ _ _ _).1 (by rw [hl]; simp)
    by_cases hc : rsCheck env.write_trailer_ret = true
    · exfalso
      rw [if_pos hc] at htr
      refine no_failed_split env _ l r e ?_ (htr.symm.trans ht) hf
      intro y hy
      rcases List.mem_append.1 hy with hy | hy
      · rcases List.mem_append.1 hy with hy | hy
        · exact hopenOk ho y hy
        · exact hL y hy
      · have := (rsCheck_true_iff _).1 hc
        simp [finishEvents] at hy
        rcases hy with hy | hy | hy | hy | hy | hy <;>
          (rw [hy]; simp only [stepFailed, not_false_eq_true]) ; omega
    · rw [if_neg hc] at htr hx
      have hcf : env.write_trailer_ret < 0 :=
        (rsCheck_false_iff _).1 (by simpa using hc)
      have htr2 : (rsSave env live priv).2.trace
          = (openEvents ++ snapshotEvents ++
              loopEvents env (tsOffset first.pts) (tsOffset first.dts)
                (snapshotOf env live priv).packets (snapshotOf env live priv).tail 0 ++
              [Event.rsPacketCircleClear]) ++ [Event.av_write_trailer] := by
        rw [htr]; simp [finishEvents]
      have hX : ∀ y ∈ openEvents ++ snapshotEvents ++
          loopEvents env (tsOffset first.pts) (tsOffset first.dts)
            (snapshotOf env live priv).packets (snapshotOf env live priv).tail 0 ++
          [Event.rsPacketCircleClear], ¬ stepFailed env y := by
        intro y hy
        rcases List.mem_append.1 hy with hy | hy
        · rcases List.mem_append.1 hy with hy | hy
          · exact hopenOk ho y hy
          · exact hL y hy
        · simp only [List.mem_singleton] at hy
          rw [hy]; simp [stepFailed]
      obtain ⟨hr, _, he⟩ := failed_is_last env _ _ hX l r e (htr2.symm.trans ht) hf
      refine ⟨hr, hx, ?_, ?_⟩
      · rw [htr2]
        intro hm
        simp only [List.mem_append, List.mem_singleton] at hm
        rcases hm with ((((hm | hm) | hm) | hm)) | hm
        · simp [openEvents] at hm
        · simp [snapshotEvents] at hm
        · obtain ⟨a, b, hab⟩ := loopEvents_only env _ _ _ _ _ _ hm
          rcases hab with hab | hab <;> cases hab
        · cases hm
        · cases hm
      · intro i p hep
        rw [he] at hep; cases hep

theorem rsSave_aborts_at_failed_step_witness :
    stepFailed (envWriteFails 0) (Event.av_write_frame 0 ⟨[1], 0, 0, 512⟩) ∧
    (([] : List Event) = [] ∧
      (rsSave (envWriteFails 0) (liveOf [pkt 1 300 299, pkt 2 301 300]) privBlank).1
        = Exit.aborted ∧
      Event.av_log_success ∉
        (rsSave (envWriteFails 0) (liveOf [pkt 1 300 299, pkt 2 301 300]) privBlank).2.trace ∧
      (∀ i p, Event.av_write_frame 0 ⟨[1], 0, 0, 512⟩ = Event.av_write_frame i p →
        (∀ j q, Event.av_write_frame j q ∈
            (rsSave (envWriteFails 0) (liveOf [pkt 1 300 299, pkt 2 301 300])
              privBlank).2.trace → j ≤ i) ∧
        Event.av_write_trailer ∉
          (rsSave (envWriteFails 0) (liveOf [pkt 1 300 299, pkt 2 301 300])
            privBlank).2.trace)) :=
  ⟨by decide,
    rsSave_aborts_at_failed_step (envWriteFails 0) (liveOf [pkt 1 300 299, pkt 2 301 300])
      privBlank
      (openEvents ++ snapshotEvents ++ [Event.av_packet_rescale_ts 0 ⟨[1], 0, 0, 1⟩])
      [] (Event.av_write_frame 0 ⟨[1], 0, 0, 512⟩) (by decide) (by decide)⟩

/-- C1, refuted as stated: with a first `pts` of -1 (not the sentinel), the second entry,
whose `pts` is the greatest `int64_t`, reaches the rescaling step with `pts` equal to the
sentinel, not with its `pts` minus the first `pts`. -/
theorem rsSave_shift_overflows :
    (snapshotOf envOk (liveOf [pkt 1 (-1) 0, pkt 2 (2 ^ 63 - 1) 5]) privBlank).packets[0]?
      = some (pkt 1 (-1) 0) ∧
    (snapshotOf envOk (liveOf [pkt 1 (-1) 0, pkt 2 (2 ^ 63 - 1) 5]) privBlank).packets[1]?
      = some (pkt 2 (2 ^ 63 - 1) 5) ∧
    (pkt 1 (-1) 0).pts ≠ AV_NOPTS_VALUE ∧ (pkt 1 (-1) 0).dts ≠ AV_NOPTS_VALUE ∧
    isInt64 (pkt 2 (2 ^ 63 - 1) 5).pts ∧
    rescaled (rsSave envOk (liveOf [pkt 1 (-1) 0, pkt 2 (2 ^ 63 - 1) 5]) privBlank).2.trace
      = [(0, ⟨[1], 0, 0, 1⟩), (1, ⟨[2], AV_NOPTS_VALUE, 5, 1⟩)] ∧
    (pkt 2 (2 ^ 63 - 1) 5).pts - (pkt 1 (-1) 0).pts ≠ AV_NOPTS_VALUE := by
  decide

/-- C1, amended: on a non-empty snapshot lying within its storage whose first entry has known
timestamps `P0` and `D0`, for every pair of time-bases and every conversion of the library
that maps a zero timestamp to zero: every entry `i` is handed to the rescaling step, at
position `i`, as soon as the run reaches the snapshot and the writes of the entries before it
succeeded; what is handed over carries the payload of entry `i` and the `int64_t` results of
`pts - P0` and `dts - D0`, which are `pts - P0` and `dts - D0` themselves whenever these are
representable; no other packet is handed to the rescaling step; and the first packet handed to
the container writer has index 0 and `pts = 0`, `dts = 0`. -/
theorem rsSave_normalizes_timestamps (env : Env) (live priv : RSPacketCircle)
    (first : AVPacket)
    (hne : 0 < (snapshotOf env live priv).tail)
    (hwf : (snapshotOf env live priv).tail ≤ (snapshotOf env live priv).packets.length)
    (h0 : (snapshotOf env live priv).packets[0]? = some first)
    (hp : first.pts ≠ AV_NOPTS_VALUE) (hd : first.dts ≠ AV_NOPTS_VALUE)
    (hz : ∀ t : Int × Int × Int,
      (t.1 = 0 → (env.rescale_ts env.encoder_time_base env.stream_time_base t).1 = 0) ∧
      (t.2.1 = 0 → (env.rescale_ts env.encoder_time_base env.stream_time_base t).2.1 = 0)) :
    (∀ i, i < (snapshotOf env live priv).tail → opened env →
      (∀ j q, j < i → Event.av_write_frame j q ∈ (rsSave env live priv).2.trace →
        0 ≤ env.write_frame_ret j q) →
      ∃ p q, (snapshotOf env live priv).packets[i]? = some p ∧
        (rescaled (rsSave env live priv).2.trace)[i]? = some (i, q) ∧
        q.pts = wrap64 (p.pts - first.pts) ∧ q.dts = wrap64 (p.dts - first.dts) ∧
        (isInt64 (p.pts - first.pts) → q.pts = p.pts - first.pts) ∧
        (isInt64 (p.dts - first.dts) → q.dts = p.dts - first.dts) ∧
        q.data = p.data) ∧
    (∀ i q, Event.av_packet_rescale_ts i q ∈ (rsSave env live priv).2.trace →
      ∃ p, (snapshotOf env live priv).packets[i]? = some p ∧
        q.pts = wrap64 (p.pts - first.pts) ∧ q.dts = wrap64 (p.dts - first.dts) ∧
        (isInt64 (p.pts - first.pts) → q.pts = p.pts - first.pts) ∧
        (isInt64 (p.dts - first.dts) → q.dts = p.dts - first.dts) ∧
        q.data = p.data) ∧
    (∀ i q, (written (rsSave env live priv).2.trace).head? = some (i, q) →
      i = 0 ∧ q.pts = 0 ∧ q.dts = 0) ∧
    (opened env →
      Event.av_packet_rescale_ts 0 ⟨first.data, 0, 0, first.duration⟩
        ∈ (rsSave env live priv).2.trace ∧
      ∃ q, (written (rsSave env live priv).2.trace).head? = some (0, q)) := by
  have hpo : tsOffset first.pts = first.pts := by simp [tsOffset, hp]
  have hdo : tsOffset first.dts = first.dts := by simp [tsOffset, hd]
  have hw0 : wrap64 0 = 0 := rfl
  have hshift : ∀ p q : AVPacket, q = shiftTs (tsOffset first.pts) (tsOffset first.dts) p →
      q.pts = wrap64 (p.pts - first.pts) ∧ q.dts = wrap64 (p.dts - first.dts) ∧
      (isInt64 (p.pts - first.pts) → q.pts = p.pts - first.pts) ∧
      (isInt64 (p.dts - first.dts) → q.dts = p.dts - first.dts) ∧
      q.data = p.data := by
    intro p q hq
    have h1 : q.pts = wrap64 (p.pts - first.pts) := by rw [hq, hpo]; rfl
    have h2 : q.dts = wrap64 (p.dts - first.dts) := by rw [hq, hdo]; rfl
    refine ⟨h1, h2, ?_, ?_, by rw [hq]; rfl⟩
    · intro r1
      rw [h1]
      exact wrap64_of_isInt64 _ r1
    · intro r2
      rw [h2]
      exact wrap64_of_isInt64 _ r2
  refine ⟨?_, ?_, ?_, ?_⟩
  · intro i hi ho hok
    obtain ⟨p, hp1, hp2, _⟩ := rsSave_entry_reached env live priv first ho hwf h0 i hi hok
    exact ⟨p, _, hp1, hp2, hshift p _ rfl⟩
  · intro i q h
    obtain ⟨f2, p, hf2, _, hpi, hq⟩ := rsSave_rescaled_event env live priv i q h
    have hfe : f2 = first := Option.some.inj (hf2.symm.trans h0)
    subst hfe
    exact ⟨p, hpi, hshift p q hq⟩
  · intro i q h
    obtain ⟨f2, hf2, hi, hq⟩ := rsSave_written_head env live priv i q h
    have hfe : f2 = first := Option.some.inj (hf2.symm.trans h0)
    subst hfe
    have hs1 : (shiftTs (tsOffset f2.pts) (tsOffset f2.dts) f2).pts = 0 := by
      rw [hpo]
      show wrap64 (f2.pts - f2.pts) = 0
      rw [Int.sub_self]; rfl
    have hs2 : (shiftTs (tsOffset f2.pts) (tsOffset f2.dts) f2).dts = 0 := by
      rw [hdo]
      show wrap64 (f2.dts - f2.dts) = 0
      rw [Int.sub_self]; rfl
    refine ⟨hi, ?_, ?_⟩
    · rw [hq]
      exact (hz _).1 hs1
    · rw [hq]
      exact (hz _).2 hs2
  · intro ho
    obtain ⟨hw, hr⟩ := rsSave_first_packet env live priv first ho hne h0
    refine ⟨?_, _, hw⟩
    have hsh : shiftTs (tsOffset first.pts) (tsOffset first.dts) first
        = ⟨first.data, 0, 0, first.duration⟩ := by
      rw [hpo, hdo]
      show (⟨first.data, wrap64 (first.pts - first.pts), wrap64 (first.dts - first.dts),
        first.duration⟩ : AVPacket) = _
      rw [Int.sub_self, Int.sub_self, hw0]
    rw [← hsh]
    exact hr

theorem rsSave_normalizes_timestamps_witness :
    rescaled (rsSave envOk (liveOf [pkt 1 300 299, pkt 2 301 300, pkt 3 305 304])
        privBlank).2.trace
      = [(0, ⟨[1], 0, 0, 1⟩), (1, ⟨[2], 1, 1, 1⟩), (2, ⟨[3], 5, 5, 1⟩)] ∧
    (∃ p q, (snapshotOf envOk (liveOf [pkt 1 300 299, pkt 2 301 300, pkt 3 305 304])
          privBlank).packets[2]? = some p ∧
        (rescaled (rsSave envOk (liveOf [pkt 1 300 299, pkt 2 301 300, pkt 3 305 304])
          privBlank).2.trace)[2]? = some (2, q) ∧
        q.pts = wrap64 (p.pts - (pkt 1 300 299).pts) ∧
        q.dts = wrap64 (p.dts - (pkt 1 300 299).dts) ∧
        (isInt64 (p.pts - (pkt 1 300 299).pts) → q.pts = p.pts - (pkt 1 300 299).pts) ∧
        (isInt64 (p.dts - (pkt 1 300 299).dts) → q.dts = p.dts - (pkt 1 300 299).dts) ∧
        q.data = p.data) :=
  ⟨by decide,
    (rsSave_normalizes_timestamps envOk
      (liveOf [pkt 1 300 299, pkt 2 301 300, pkt 3 305 304]) privBlank
      (pkt 1 300 299) (by decide) (by decide) (by decide) (by decide) (by decide)
      (fun t => ⟨fun h => by
          show rescaleQ ⟨1, 30⟩ ⟨1, 15360⟩ t.1 = 0
          rw [h]; decide,
        fun h => by
          show rescaleQ ⟨1, 30⟩ ⟨1, 15360⟩ t.2.1 = 0
          rw [h]; decide⟩)).1 2 (by decide) (by decide) (fun _ _ _ _ => Int.le_refl 0)⟩

/-- C2: on a snapshot of `int64_t` timestamps lying within its storage, the two
offsets are decided independently from slot 0.  Every entry `i` is handed to the rescaling
step, at position `i`, as soon as the run reaches the snapshot and the writes of the entries
before it succeeded; when the first `pts` is the sentinel it is handed over with its `pts`
unchanged, otherwise with the first `pts` subtracted; when the first `dts` is the sentinel it
is handed over with its `dts` unchanged, otherwise with the first `dts` subtracted; and no
other packet is handed to the rescaling step. -/
theorem rsSave_unknown_first_timestamp (env : Env) (live priv : RSPacketCircle)
    (first : AVPacket)
    (hwf : (snapshotOf env live priv).tail ≤ (snapshotOf env live priv).packets.length)
    (h0 : (snapshotOf env live priv).packets[0]? = some first)
    (hint : ∀ p ∈ (snapshotOf env live priv).packets.take (snapshotOf env live priv).tail,
      isInt64 p.pts ∧ isInt64 p.dts) :
    (∀ i, i < (snapshotOf env live priv).tail → opened env →
      (∀ j q, j < i → Event.av_write_frame j q ∈ (rsSave env live priv).2.trace →
        0 ≤ env.write_frame_ret j q) →
      ∃ p q, (snapshotOf env live priv).packets[i]? = some p ∧
        (rescaled (rsSave env live priv).2.trace)[i]? = some (i, q) ∧
        (first.pts = AV_NOPTS_VALUE → q.pts = p.pts) ∧
        (first.pts ≠ AV_NOPTS_VALUE → q.pts = wrap64 (p.pts - first.pts)) ∧
        (first.dts = AV_NOPTS_VALUE → q.dts = p.dts) ∧
        (first.dts ≠ AV_NOPTS_VALUE → q.dts = wrap64 (p.dts - first.dts)) ∧
        q.data = p.data) ∧
    (∀ i q, Event.av_packet_rescale_ts i q ∈ (rsSave env live priv).2.trace →
      ∃ p, (snapshotOf env live priv).packets[i]? = some p ∧
        (first.pts = AV_NOPTS_VALUE → q.pts = p.pts) ∧
        (first.pts ≠ AV_NOPTS_VALUE → q.pts = wrap64 (p.pts - first.pts)) ∧
        (first.dts = AV_NOPTS_VALUE → q.dts = p.dts) ∧
        (first.dts ≠ AV_NOPTS_VALUE → q.dts = wrap64 (p.dts - first.dts)) ∧
        q.data = p.data) := by
  have hshift : ∀ (i : Nat) (p q : AVPacket), i < (snapshotOf env live priv).tail →
      (snapshotOf env live priv).packets[i]? = some p →
      q = shiftTs (tsOffset first.pts) (tsOffset first.dts) p →
      (first.pts = AV_NOPTS_VALUE → q.pts = p.pts) ∧
      (first.pts ≠ AV_NOPTS_VALUE → q.pts = wrap64 (p.pts - first.pts)) ∧
      (first.dts = AV_NOPTS_VALUE → q.dts = p.dts) ∧
      (first.dts ≠ AV_NOPTS_VALUE → q.dts = wrap64 (p.dts - first.dts)) ∧
      q.data = p.data := by
    intro i p q hi hpi hq
    have hmem : p ∈ (snapshotOf env live priv).packets.take (snapshotOf env live priv).tail := by
      apply List.getElem?_mem (n := i)
      rw [List.getElem?_take_of_lt hi]
      exact hpi
    obtain ⟨r1, r2⟩ := hint p hmem
    refine ⟨?_, ?_, ?_, ?_, by rw [hq]; rfl⟩
    · intro hs
      rw [hq]
      show wrap64 (p.pts - tsOffset first.pts) = p.pts
      rw [tsOffset, if_pos hs, Int.sub_zero]
      exact wrap64_of_isInt64 _ r1
    · intro hs
      rw [hq]
      show wrap64 (p.pts - tsOffset first.pts) = _
      rw [tsOffset, if_neg hs]
    · intro hs
      rw [hq]
      show wrap64 (p.dts - tsOffset first.dts) = p.dts
      rw [tsOffset, if_pos hs, Int.sub_zero]
      exact wrap64_of_isInt64 _ r2
    · intro hs
      rw [hq]
      show wrap64 (p.dts - tsOffset first.dts) = _
      rw [tsOffset, if_neg hs]
  refine ⟨?_, ?_⟩
  · intro i hi ho hok
    obtain ⟨p, hp1, hp2, _⟩ := rsSave_entry_reached env live priv first ho hwf h0 i hi hok
    exact ⟨p, _, hp1, hp2, hshift i p _ hi hp1 rfl⟩
  · intro i q h
    obtain ⟨f2, p, hf2, hi, hpi, hq⟩ := rsSave_rescaled_event env live priv i q h
    have hfe : f2 = first := Option.some.inj (hf2.symm.trans h0)
    subst hfe
    exact ⟨p, hpi, hshift i p q hi hpi hq⟩

theorem rsSave_unknown_first_timestamp_witness :
    rescaled (rsSave envOk (liveOf [pkt 1 AV_NOPTS_VALUE 299, pkt 2 301 300, pkt 3 305 304])
        privBlank).2.trace
      = [(0, ⟨[1], AV_NOPTS_VALUE, 0, 1⟩), (1, ⟨[2], 301, 1, 1⟩), (2, ⟨[3], 305, 5, 1⟩)] ∧
    (∃ p q, (snapshotOf envOk
          (liveOf [pkt 1 AV_NOPTS_VALUE 299, pkt 2 301 300, pkt 3 305 304])
          privBlank).packets[2]? = some p ∧
        (rescaled (rsSave envOk
          (liveOf [pkt 1 AV_NOPTS_VALUE 299, pkt 2 301 300, pkt 3 305 304])
          privBlank).2.trace)[2]? = some (2, q) ∧
        ((pkt 1 AV_NOPTS_VALUE 299).pts = AV_NOPTS_VALUE → q.pts = p.pts) ∧
        ((pkt 1 AV_NOPTS_VALUE 299).pts ≠ AV_NOPTS_VALUE →
          q.pts = wrap64 (p.pts - (pkt 1 AV_NOPTS_VALUE 299).pts)) ∧
        ((pkt 1 AV_NOPTS_VALUE 299).dts = AV_NOPTS_VALUE → q.dts = p.dts) ∧
        ((pkt 1 AV_NOPTS_VALUE 299).dts ≠ AV_NOPTS_VALUE →
          q.dts = wrap64 (p.dts - (pkt 1 AV_NOPTS_VALUE 299).dts)) ∧
        q.data = p.data) :=
  ⟨by decide,
    (rsSave_unknown_first_timestamp envOk
      (liveOf [pkt 1 AV_NOPTS_VALUE 299, pkt 2 301 300, pkt 3 305 304]) privBlank
      (pkt 1 AV_NOPTS_VALUE 299) (by decide) (by decide) (by decide)).1 2
      (by decide) (by decide) (fun _ _ _ _ => Int.le_refl 0)⟩

/-- C10, refuted as stated: with a first `pts` of -1, the second entry, whose `pts` is the
sentinel, reaches the rescaling step with `pts` equal to the sentinel plus one. -/
theorem rsSave_shift_loses_sentinel :
    (snapshotOf envOk (liveOf [pkt 1 (-1) 0, pkt 2 AV_NOPTS_VALUE 5]) privBlank).packets[1]?
      = some (pkt 2 AV_NOPTS_VALUE 5) ∧
    rescaled (rsSave envOk (liveOf [pkt 1 (-1) 0, pkt 2 AV_NOPTS_VALUE 5]) privBlank).2.trace
      = [(0, ⟨[1], 0, 0, 1⟩), (1, ⟨[2], AV_NOPTS_VALUE + 1, 5, 1⟩)] ∧
    AV_NOPTS_VALUE + 1 ≠ AV_NOPTS_VALUE := by
  decide

/-- C10, amended: when the first slot holds `int64_t` timestamps, an entry whose `pts` is the
sentinel keeps the sentinel through the offset subtraction exactly when the `pts` offset is
zero, that is when the first `pts` is the sentinel or zero; likewise for `dts`. -/
theorem rsSave_sentinel_kept_iff_zero_offset (env : Env) (live priv : RSPacketCircle)
    (first : AVPacket)
    (h0 : (snapshotOf env live priv).packets[0]? = some first)
    (hf : isInt64 first.pts ∧ isInt64 first.dts) :
    ∀ i q, Event.av_packet_rescale_ts i q ∈ (rsSave env live priv).2.trace →
      ∃ p, (snapshotOf env live priv).packets[i]? = some p ∧
        (p.pts = AV_NOPTS_VALUE →
          (q.pts = AV_NOPTS_VALUE ↔ (first.pts = AV_NOPTS_VALUE ∨ first.pts = 0))) ∧
        (p.dts = AV_NOPTS_VALUE →
          (q.dts = AV_NOPTS_VALUE ↔ (first.dts = AV_NOPTS_VALUE ∨ first.dts = 0))) := by
  intro i q h
  obtain ⟨f2, p, hf2, _, hpi, hq⟩ := rsSave_rescaled_event env live priv i q h
  have hfe : f2 = first := Option.some.inj (hf2.symm.trans h0)
  subst hfe
  refine ⟨p, hpi, ?_, ?_⟩
  · intro hs
    rw [hq, ← tsOffset_eq_zero_iff]
    show wrap64 (p.pts - tsOffset f2.pts) = AV_NOPTS_VALUE ↔ _
    rw [hs]
    exact wrap64_sentinel_sub _ (tsOffset_isInt64 _ hf.1)
  · intro hs
    rw [hq, ← tsOffset_eq_zero_iff]
    show wrap64 (p.dts - tsOffset f2.dts) = AV_NOPTS_VALUE ↔ _
    rw [hs]
    exact wrap64_sentinel_sub _ (tsOffset_isInt64 _ hf.2)

theorem rsSave_sentinel_kept_iff_zero_offset_witness :
    Event.av_packet_rescale_ts 1 ⟨[2], AV_NOPTS_VALUE + 1, 5, 1⟩ ∈
        (rsSave envOk (liveOf [pkt 1 (-1) 0, pkt 2 AV_NOPTS_VALUE 5]) privBlank).2.trace ∧
      ∃ p, (snapshotOf envOk (liveOf [pkt 1 (-1) 0, pkt 2 AV_NOPTS_VALUE 5])
          privBlank).packets[1]? = some p ∧
        (p.pts = AV_NOPTS_VALUE →
          ((⟨[2], AV_NOPTS_VALUE + 1, 5, 1⟩ : AVPacket).pts = AV_NOPTS_VALUE ↔
            ((pkt 1 (-1) 0).pts = AV_NOPTS_VALUE ∨ (pkt 1 (-1) 0).pts = 0))) ∧
        (p.dts = AV_NOPTS_VALUE →
          ((⟨[2], AV_NOPTS_VALUE + 1, 5, 1⟩ : AVPacket).dts = AV_NOPTS_VALUE ↔
            ((pkt 1 (-1) 0).dts = AV_NOPTS_VALUE ∨ (pkt 1 (-1) 0).dts = 0))) :=
  ⟨by decide,
    rsSave_sentinel_kept_iff_zero_offset envOk (liveOf [pkt 1 (-1) 0, pkt 2 AV_NOPTS_VALUE 5])
      privBlank (pkt 1 (-1) 0) (by decide) (by decide) 1 ⟨[2], AV_NOPTS_VALUE + 1, 5, 1⟩
      (by decide)⟩

end ReplaySorcery
